import Mathlib

/-!
# attiny85CheatSheet: the display, page store and page navigator of `main.c`

A shallow embedding of `src/main.c`.  The firmware bit-bangs an I2C bus through the
USI peripheral, configures an SSD1306 display, reads 128-byte text subpages from an
external EEPROM and draws them with 6-column glyphs.

## Model

* The C globals `_g_linepos`, `_g_linenum`, `_g_currentsubPage` and the register `PORTB`
  are fields of `State`.  `uint8_t` values are naturals reduced `% 256` where the C code
  can overflow; the `int8_t` page index is an integer wrapped by `wrapInt8`.
* The outside world is an oracle carried in the state: `acks n` tells whether the
  `n`-th acknowledge pulse finds the data line pulled low, `rx n` is the `n`-th byte
  clocked in by `USIReceive`.  Every theorem that says "for every pattern of acknowledge
  outcomes" quantifies over these functions.
* Everything the firmware does on the bus is appended to `trace`, one event for each call
  of the five bus primitives.  The shift loops of `USISend`, `USIReceive` and
  `Acknowledge` clock a fixed number of bits through the USI data register; the
  embedding keeps their externally visible effect (the byte shifted out, the byte or
  bit shifted in, the final level of the clock pin) and leaves the USI counter out.
* The statement pair `USISend(USI_TIMER_MASK_8BIT, b); if (Acknowledge()&1) return 0;`
  occurs throughout `main.c`; it is embedded once, as `sendByte b rest`, where `rest` is
  the code that follows it in the function.  In the same way `callChecked f rest` is
  `if (!f(...)) return 0;` followed by `rest`.  A function body is the chain of its
  statements in source order, and the result of a function is the pair of its C return
  value and the state it leaves.
* Two ghost events mark the entry of `printSegment` and `readDisplayPage`, so that calls
  can be counted and their arguments observed.
* `flipped_letters.h` (the glyph bitmaps) is not part of the sources; the glyph table is
  a parameter `G` giving the six bytes of the glyph of every character code.
-/

namespace Attiny85

/-! ## Constants of `main.c` -/

/-- Pin number of `PB0` (avr/io.h), the data line. -/
def SDA_PIN : Nat := 0
/-- Pin number of `PB2` (avr/io.h), the clock line. -/
def SCL_PIN : Nat := 2
/-- Pin number of `PB3` (avr/io.h), the "next page" input. -/
def PB3 : Nat := 3
/-- Pin number of `PB4` (avr/io.h), the "previous page" input. -/
def PB4 : Nat := 4

def USI_TIMER_MASK_8BIT : Nat := 0b00001000
def USI_TIMER_MASK_1BIT : Nat := 0b00001111

def SET_CONTRAST_CONTROLP : Nat := 0x81
def ENTIRE_DISPLAY_ON_FOLLOW_RAM : Nat := 0xA4
def SET_NORMAL_DISPLAY : Nat := 0xA6
def SET_DISPLAY_OFF : Nat := 0xAE
def SET_DISPLAY_ON : Nat := 0xAF
def SET_MEMORY_ADDRESSING_MODEP : Nat := 0x20
def SET_COLUMN_ADDRESSP : Nat := 0x21
def SET_PAGE_ADDRESSP : Nat := 0x22
def SET_DISPLAY_START_LINE : Nat := 0x40
def SET_SEGMENT_REMAP : Nat := 0xA0
def SET_MUX_RATIOP : Nat := 0xA8
def SET_COM_OUTPUT_SCAN_DIRECTION : Nat := 0xC0
def SET_DISPLAY_OFFSETP : Nat := 0xD3
def SET_COM_PINS_HARDWARE_CONFIGP : Nat := 0xDA
def SET_DISPLAY_CLOCK_DIVIDE_RATIO_OSCILLATOR_FREQUENCYP : Nat := 0xD5
def SET_PRECHARGE_PERIODP : Nat := 0xD9
def SET_VCOMH_DESELECT_LEVELP : Nat := 0xDB

def COMMAND_STREAM : Nat := 0b00000000
def DATA_STREAM : Nat := 0b01000000

def OLED_SCREEN : Nat := 0b01111000
def EEPROM : Nat := 0b10100000

def MAX_LETTERS_PER_LINE : Nat := 21
def MAX_LINES : Nat := 8
def MAX_SUBPAGES : Nat := 16
def SUBPAGES_PER_MEMPAGE : Nat := 2

/-! ## State, events and machine arithmetic -/

/-- One event on the bus, or a ghost marker for the entry of a function. -/
inductive Ev where
  /-- `StartCondition()` -/
  | start
  /-- `I2CDisconnect()`, the stop condition -/
  | stop
  /-- `USISend(USI_TIMER_MASK_8BIT, b)`: the byte `b` is shifted out -/
  | send (b : Nat)
  /-- `USIReceive(USI_TIMER_MASK_8BIT)`: the byte `b` is shifted in -/
  | recv (b : Nat)
  /-- `Acknowledge()`: one clock pulse; `ok` tells that the data line was low -/
  | ack (ok : Bool)
  /-- ghost: `printSegment` was entered -/
  | drawCall
  /-- ghost: `readDisplayPage(subpage)` was entered -/
  | renderCall (subpage : Nat)
  deriving DecidableEq

/-- The six bytes of a glyph, the arguments of `printSegment`. -/
structure Glyph where
  seg1 : Nat
  seg2 : Nat
  seg3 : Nat
  seg4 : Nat
  seg5 : Nat
  seg6 : Nat
  deriving DecidableEq

/-- The globals of `main.c`, the output register, the oracle of the outside world and
the trace of what happened on the bus. -/
structure State where
  /-- `uint8_t _g_linepos` -/
  linepos : Nat
  /-- `uint8_t _g_linenum` -/
  linenum : Nat
  /-- `int8_t _g_currentsubPage` -/
  currentsubPage : Int
  /-- the register `PORTB` -/
  PORTB : Nat
  /-- oracle: does the `n`-th acknowledge pulse find the data line low? -/
  acks : Nat → Bool
  /-- number of acknowledge pulses so far -/
  ackPos : Nat
  /-- oracle: the `n`-th byte shifted in by `USIReceive` -/
  rx : Nat → Nat
  /-- number of bytes shifted in so far -/
  rxPos : Nat
  /-- everything that happened so far, oldest event first -/
  trace : List Ev

/-- Conversion of an integer to `int8_t` (two's complement wrap-around). -/
def wrapInt8 (x : Int) : Int := (x + 128) % 256 - 128

/-- Conversion of an `int8_t` to `uint8_t`. -/
def toUInt8 (x : Int) : Nat := (x % 256).toNat

/-- `R |= 1<<pin` on an 8-bit register. -/
def setPin (r pin : Nat) : Nat := (r ||| (1 <<< pin)) % 256

/-- `R &= ~(1<<pin)` on an 8-bit register. -/
def clearPin (r pin : Nat) : Nat := (r % 256) &&& (255 - (1 <<< pin))

/-! ## Bus engine -/

/-- `StartCondition`: data low, clock low, data high again.  The waiting loops test the
output latch that was just written and fall through. -/
@[simps]
def StartCondition (s : State) : State :=
  { s with
    PORTB := setPin (clearPin (clearPin s.PORTB SDA_PIN) SCL_PIN) SDA_PIN
    trace := s.trace ++ [Ev.start] }

/-- `I2CDisconnect`: clock high, then data high. -/
@[simps]
def I2CDisconnect (s : State) : State :=
  { s with
    PORTB := setPin (setPin s.PORTB SCL_PIN) SDA_PIN
    trace := s.trace ++ [Ev.stop] }

/-- `USISend(temp_USISR, data)`: shifts the low eight bits of `data` out; every pass of
the loop ends with the clock low.  The returned `USIDR` is discarded by every caller and
is not modelled. -/
@[simps]
def USISend (_temp_USISR data : Nat) (s : State) : State :=
  { s with
    PORTB := clearPin (setPin s.PORTB SCL_PIN) SCL_PIN
    trace := s.trace ++ [Ev.send (data % 256)] }

/-- `USIReceive(temp_USISR)`: shifts eight bits in and returns them. -/
@[simps]
def USIReceive (_temp_USISR : Nat) (s : State) : Nat × State :=
  (s.rx s.rxPos % 256,
   { s with
     PORTB := clearPin (setPin s.PORTB SCL_PIN) SCL_PIN
     rxPos := s.rxPos + 1
     trace := s.trace ++ [Ev.recv (s.rx s.rxPos % 256)] })

/-- `Acknowledge`: clears `USIDR`, shifts one bit in and returns `USIDR`: `0` when the
data line was low (acknowledged), `1` when it stayed high. -/
@[simps]
def Acknowledge (s : State) : Nat × State :=
  ((if s.acks s.ackPos then 0 else 1),
   { s with
     PORTB := clearPin (setPin s.PORTB SCL_PIN) SCL_PIN
     ackPos := s.ackPos + 1
     trace := s.trace ++ [Ev.ack (s.acks s.ackPos)] })

/-- `I2CMasterConnect(address)`. -/
def I2CMasterConnect (address : Nat) (s : State) : Nat × State :=
  let s := StartCondition s
  let s := USISend USI_TIMER_MASK_8BIT address s
  let (a, s) := Acknowledge s
  if a &&& 1 ≠ 0 then (0, s) else
  (1, s)

/-- The statements `USISend(USI_TIMER_MASK_8BIT, b); if (Acknowledge()&1) return 0;`
followed by the rest of the function. -/
def sendByte (b : Nat) (rest : State → Nat × State) (s : State) : Nat × State :=
  let s := USISend USI_TIMER_MASK_8BIT b s
  let (a, s) := Acknowledge s
  if a &&& 1 ≠ 0 then (0, s) else
  rest s

/-- The statement `if (!f(...)) return 0;` followed by the rest of the function. -/
def callChecked (f : State → Nat × State) (rest : State → Nat × State) (s : State) :
    Nat × State :=
  let (r, s) := f s
  if r = 0 then (0, s) else
  rest s

/-! ## Display controller -/

/-- `SSD1306SendControlByte(controlByte)`. -/
def SSD1306SendControlByte (controlByte : Nat) (s : State) : Nat × State :=
  let s := USISend USI_TIMER_MASK_8BIT controlByte s
  let (a, s) := Acknowledge s
  if a &&& 1 ≠ 0 then (0, s) else
  (1, s)

/-- `initSSD1306()`. -/
def initSSD1306 : State → Nat × State :=
  callChecked (I2CMasterConnect OLED_SCREEN) <|
  callChecked (SSD1306SendControlByte COMMAND_STREAM) <|
  sendByte SET_DISPLAY_OFF <|
  sendByte SET_MUX_RATIOP <|
  sendByte 0x3F <|
  sendByte SET_DISPLAY_OFFSETP <|
  sendByte 0x00 <|
  sendByte SET_DISPLAY_START_LINE <|
  sendByte (SET_SEGMENT_REMAP ||| 1) <|
  sendByte (SET_COM_OUTPUT_SCAN_DIRECTION ||| 8) <|
  sendByte SET_COM_PINS_HARDWARE_CONFIGP <|
  sendByte 0o322 <|
  sendByte SET_CONTRAST_CONTROLP <|
  sendByte 0x7f <|
  sendByte ENTIRE_DISPLAY_ON_FOLLOW_RAM <|
  sendByte SET_NORMAL_DISPLAY <|
  sendByte SET_DISPLAY_CLOCK_DIVIDE_RATIO_OSCILLATOR_FREQUENCYP <|
  sendByte 0x80 <|
  sendByte 0x8D <|
  sendByte 0x14 <|
  sendByte SET_VCOMH_DESELECT_LEVELP <|
  sendByte (1 <<< 5) <|
  sendByte SET_MEMORY_ADDRESSING_MODEP <|
  sendByte 0 <|
  sendByte SET_PRECHARGE_PERIODP <|
  sendByte ((1 <<< 5) ||| (1 <<< 1)) <|
  sendByte SET_DISPLAY_ON <|
  fun s => (1, I2CDisconnect s)

/-- The block `if(_g_linepos == 21) { _g_linepos = 0; _g_linenum++;
if(_g_linenum == 8) _g_linenum = 0; }` of `translatePos`. -/
def nextLine (s : State) : State :=
  if s.linepos = 21 then
    let s := { s with linepos := 0 }
    let s := { s with linenum := (s.linenum + 1) % 256 }
    if s.linenum = 8 then { s with linenum := 0 } else s
  else s

/-- `translatePos()`: sets the address window of the display for the next glyph. -/
def translatePos : State → Nat × State :=
  callChecked (I2CMasterConnect OLED_SCREEN) <|
  callChecked (SSD1306SendControlByte COMMAND_STREAM) <| fun s =>
  let s := nextLine s
  (sendByte SET_PAGE_ADDRESSP <| fun s =>
   (sendByte s.linenum <|
    sendByte 7 <|
    sendByte SET_COLUMN_ADDRESSP <| fun s =>
    (sendByte (s.linepos * 6) <|
     sendByte 127 <|
     fun s => (1, I2CDisconnect s)) s) s) s

/-- The loop `for (uint16_t i = 0; i < 1024; i++) { USISend(USI_TIMER_MASK_8BIT,0);
if(Acknowledge()&1) return 0; }` of `clearScreen` with `n` passes left, followed by the
rest of the function. -/
def clearLoop : Nat → (State → Nat × State) → State → Nat × State
  | 0, rest => rest
  | n + 1, rest => sendByte 0 (clearLoop n rest)

/-- `clearScreen()`. -/
def clearScreen : State → Nat × State :=
  callChecked (I2CMasterConnect OLED_SCREEN) <|
  callChecked (SSD1306SendControlByte COMMAND_STREAM) <|
  sendByte SET_PAGE_ADDRESSP <|
  sendByte 0 <|
  sendByte 7 <|
  sendByte SET_COLUMN_ADDRESSP <|
  sendByte 0 <|
  sendByte 127 <| fun s =>
  let s := I2CDisconnect s
  (callChecked (I2CMasterConnect OLED_SCREEN) <|
   callChecked (SSD1306SendControlByte DATA_STREAM) <|
   clearLoop 1024 <| fun s =>
   let s := I2CDisconnect s
   let s := { s with linenum := 0 }
   let s := { s with linepos := 0 }
   (1, s)) s

/-- `printSegment(seg1, ..., seg6)`; the result of its call of `translatePos()` is
discarded. -/
def printSegment (g : Glyph) (s : State) : Nat × State :=
  let s := { s with trace := s.trace ++ [Ev.drawCall] }
  let (_, s) := translatePos s
  (callChecked (I2CMasterConnect OLED_SCREEN) <|
   callChecked (SSD1306SendControlByte DATA_STREAM) <|
   sendByte g.seg1 <|
   sendByte g.seg2 <|
   sendByte g.seg3 <|
   sendByte g.seg4 <|
   sendByte g.seg5 <|
   sendByte g.seg6 <| fun s =>
   let s := { s with linepos := (s.linepos + 1) % 256 }
   let s := I2CDisconnect s
   (1, s)) s

/-- The character codes that have a `case` in the `switch` of `printChar`, in the order
of the source: `A`-`Z`, `a`-`z`, then the punctuation and the digits. -/
def printCharCases : List Nat :=
  [65, 66, 67, 68, 69, 70, 71, 72, 73, 74, 75, 76, 77, 78, 79, 80, 81, 82, 83, 84, 85, 86,
   87, 88, 89, 90,
   97, 98, 99, 100, 101, 102, 103, 104, 105, 106, 107, 108, 109, 110, 111, 112, 113, 114,
   115, 116, 117, 118, 119, 120, 121, 122,
   32, 33, 34, 35, 36, 37, 38, 39, 40, 41, 42, 43, 44, 45, 46, 47,
   48, 49, 50, 51, 52, 53, 54, 55, 56, 57,
   58, 59, 60, 61, 62, 63, 64, 91, 92, 93, 94, 95, 96, 123, 124, 125, 126]

/-- `printChar(letter)`: every `case` of the switch has the same body,
`if (!printSegment(GLYPH)) return 0; break;`, with the glyph `G letter` of that
character; after the switch, and for a code without a case, `return 1`. -/
def printChar (G : Nat → Glyph) (letter : Nat) (s : State) : Nat × State :=
  if letter ∈ printCharCases then
    (callChecked (printSegment (G letter)) <| fun s => (1, s)) s
  else (1, s)

/-! ## Page store and page navigator -/

/-- The loop `for (uint8_t i = 0; i < 128; i++)` of `readDisplayPage` with `n` passes
left, followed by the rest of the function. -/
def readLoop (G : Nat → Glyph) (readAddress : Nat) :
    Nat → (State → Nat × State) → State → Nat × State
  | 0, rest => rest
  | n + 1, rest =>
    callChecked (I2CMasterConnect readAddress) <| fun s =>
    let (character, s) := USIReceive USI_TIMER_MASK_8BIT s
    let (_, s) := Acknowledge s
    let s := I2CDisconnect s
    (callChecked (printChar G character) <|
     readLoop G readAddress n rest) s

/-- `readDisplayPage(subpage)`. -/
def readDisplayPage (G : Nat → Glyph) (subpage : Nat) (s : State) : Nat × State :=
  let s := { s with trace := s.trace ++ [Ev.renderCall subpage] }
  if subpage < MAX_SUBPAGES then
    let readAddress := (EEPROM ||| ((subpage / SUBPAGES_PER_MEMPAGE) <<< 1) ||| 1) % 256
    let writeAddress := (EEPROM ||| ((subpage / SUBPAGES_PER_MEMPAGE) <<< 1)) % 256
    (callChecked (I2CMasterConnect writeAddress) <|
     sendByte (subpage <<< 7) <| fun s =>
     let s := I2CDisconnect s
     (readLoop G readAddress 128 <| fun s => (1, s)) s) s
  else (1, s)

/-- `ISR(PCINT0_vect)`: `pinb1` and `pinb2` are the values of `PINB` at its two reads. -/
def ISR (G : Nat → Glyph) (pinb1 pinb2 : Nat) (s : State) : State :=
  let s :=
    if pinb1 &&& (1 <<< PB3) = 0 then
      let s := { s with currentsubPage := wrapInt8 (s.currentsubPage + 1) }
      let s := if s.currentsubPage ≥ 16 then { s with currentsubPage := 0 } else s
      let (_, s) := clearScreen s
      let (_, s) := readDisplayPage G (toUInt8 s.currentsubPage) s
      s
    else s
  if pinb2 &&& (1 <<< PB4) = 0 then
    let s := { s with currentsubPage := wrapInt8 (s.currentsubPage - 1) }
    let s := if s.currentsubPage < 0 then { s with currentsubPage := 15 } else s
    let (_, s) := clearScreen s
    let (_, s) := readDisplayPage G (toUInt8 s.currentsubPage) s
    s
  else s


/-- `initI2C()`: `PORTB = (1<<SCL_PIN)|(1<<SDA_PIN)`; the direction register and the USI
registers that it also sets are not part of the state. -/
def initI2C (s : State) : State :=
  { s with PORTB := (1 <<< SCL_PIN) ||| (1 <<< SDA_PIN) }

/-- `main()` up to `sei()`: the state in which interrupts are enabled and the sleep loop
begins. Of the register set-up only `PORTB |= (1<<PB3)|(1<<PB4)` touches the state; the
results of `initSSD1306()` and `clearScreen()` are discarded; `PORTB |= 2` lights the
error output when `readDisplayPage(0)` returns `0`. -/
def main (G : Nat → Glyph) (s : State) : State :=
  let s := initI2C s
  let s := { s with PORTB := (s.PORTB ||| ((1 <<< PB3) ||| (1 <<< PB4))) % 256 }
  let (_, s) := initSSD1306 s
  let (_, s) := clearScreen s
  let (r, s) := readDisplayPage G 0 s
  if r = 0 then { s with PORTB := (s.PORTB ||| 2) % 256 } else s


/-! ## Vocabulary: states reached by checked bytes -/

/-- State after `USISend(USI_TIMER_MASK_8BIT, b); Acknowledge();`. -/
def wr (b : Nat) (s : State) : State :=
  (Acknowledge (USISend USI_TIMER_MASK_8BIT b s)).2

/-- State after the bytes `bs` were sent one after the other, each followed by an
acknowledge pulse. -/
def wrAll : List Nat → State → State
  | [], s => s
  | b :: bs, s => wrAll bs (wr b s)

/-- A chain of `sendByte` for the bytes `bs`, followed by `rest`. -/
def sendAll : List Nat → (State → Nat × State) → State → Nat × State
  | [], rest => rest
  | b :: bs, rest => sendByte b (sendAll bs rest)

/-- The assignments `_g_linenum = 0; _g_linepos = 0;` at the end of `clearScreen`. -/
def homeCursor (t : State) : State :=
  { t with linenum := 0, linepos := 0 }

/-- Row of the cell at which the next glyph is drawn: the row that `translatePos`
addresses from this cursor. -/
def cellRow (s : State) : Nat := (nextLine s).linenum

/-- Position in the row (0..20) of the cell at which the next glyph is drawn; the start
column that `translatePos` addresses is six times this. -/
def cellCol (s : State) : Nat := (nextLine s).linepos

/-- Row-major index of the cell at which the next glyph is drawn, over 8 rows of 21
cells. -/
def cellIndex (s : State) : Nat := cellRow s * 21 + cellCol s

/-! ## Vocabulary: byte sequences of the transactions -/

/-- The bytes written by `initSSD1306` in order: the device address, the control byte
and the 25 configuration bytes. -/
def initBytes : List Nat :=
  [OLED_SCREEN, COMMAND_STREAM,
   SET_DISPLAY_OFF,
   SET_MUX_RATIOP, 0x3F,
   SET_DISPLAY_OFFSETP, 0x00,
   SET_DISPLAY_START_LINE,
   SET_SEGMENT_REMAP ||| 1,
   SET_COM_OUTPUT_SCAN_DIRECTION ||| 8,
   SET_COM_PINS_HARDWARE_CONFIGP, 0o322,
   SET_CONTRAST_CONTROLP, 0x7f,
   ENTIRE_DISPLAY_ON_FOLLOW_RAM,
   SET_NORMAL_DISPLAY,
   SET_DISPLAY_CLOCK_DIVIDE_RATIO_OSCILLATOR_FREQUENCYP, 0x80,
   0x8D, 0x14,
   SET_VCOMH_DESELECT_LEVELP, 1 <<< 5,
   SET_MEMORY_ADDRESSING_MODEP, 0,
   SET_PRECHARGE_PERIODP, (1 <<< 5) ||| (1 <<< 1),
   SET_DISPLAY_ON]

/-- The bytes of the first transaction of `clearScreen`: address, control byte and the
two address windows. -/
def clearWindowBytes : List Nat :=
  [OLED_SCREEN, COMMAND_STREAM, SET_PAGE_ADDRESSP, 0, 7, SET_COLUMN_ADDRESSP, 0, 127]

/-- The bytes of the second transaction of `clearScreen`: address, control byte and 1024
zero bytes. -/
def clearDataBytes : List Nat :=
  OLED_SCREEN :: DATA_STREAM :: List.replicate 1024 0

/-- The device byte of the address-set transaction of `readDisplayPage`. -/
def writeAddress (subpage : Nat) : Nat :=
  (EEPROM ||| ((subpage / SUBPAGES_PER_MEMPAGE) <<< 1)) % 256

/-- The device byte of the read transactions of `readDisplayPage`. -/
def readAddress (subpage : Nat) : Nat :=
  (EEPROM ||| ((subpage / SUBPAGES_PER_MEMPAGE) <<< 1) ||| 1) % 256

/-! ## Vocabulary: events -/

/-- The events of sending the bytes `bs` with every byte acknowledged. -/
def acked : List Nat → List Ev
  | [] => []
  | b :: bs => Ev.send (b % 256) :: Ev.ack true :: acked bs

/-- The events of one complete write transaction: start, the bytes `bs`, each
acknowledged, stop. -/
def writeTx (bs : List Nat) : List Ev :=
  Ev.start :: acked bs ++ [Ev.stop]

/-- The events of one single-byte read transaction: start, the device address `a`
acknowledged, the byte `b` shifted in, the acknowledge pulse that follows (`k` tells
whether the line was low), stop. -/
def readTx (a b : Nat) (k : Bool) : List Ev :=
  [Ev.start, Ev.send (a % 256), Ev.ack true, Ev.recv b, Ev.ack k, Ev.stop]

/-- The events of a successful `printSegment` that addresses the page `row` and the
start column `col` and then writes the glyph `g`. -/
def drawEvents (row col : Nat) (g : Glyph) : List Ev :=
  Ev.drawCall ::
    writeTx [OLED_SCREEN, COMMAND_STREAM, SET_PAGE_ADDRESSP, row, 7,
      SET_COLUMN_ADDRESSP, col, 127] ++
    writeTx [OLED_SCREEN, DATA_STREAM, g.seg1, g.seg2, g.seg3, g.seg4, g.seg5, g.seg6]

/-- The next `n` bytes that the memory returns, from the read position `pos` on. -/
def memBytes (rx : Nat → Nat) : Nat → Nat → List Nat
  | _, 0 => []
  | pos, n + 1 => rx pos % 256 :: memBytes rx (pos + 1) n

/-- The numbers of the acknowledge pulses that follow a byte read, in a run of the
read-and-draw loop in which every written byte is acknowledged, for the bytes `cs` and a
loop that begins at the pulse number `p`: a pass uses the pulse `p` for the device address
that it writes, the pulse `p + 1` after the byte that it reads, and, when the byte has a
glyph, the sixteen pulses from `p + 2` on for the bytes that `printSegment` writes. -/
def readPulses : Nat → List Nat → List Nat
  | _, [] => []
  | p, c :: cs =>
    (p + 1) :: readPulses (p + 2 + (if c ∈ printCharCases then 16 else 0)) cs

/-- The events of the read-and-draw loop of a successful `readDisplayPage` on a bus
that acknowledges every written byte, for the bytes `cs` read from the device address
`a`, when the loop begins at the pulse number `p` of the oracle `acks` and `k` glyphs were
drawn before: every byte is read by one transaction, in which the pulse after the byte
shows whatever the oracle holds there; a byte that has a glyph is then drawn at the page
`k / 21` and the start column `6 * (k mod 21)`, where `k` counts the glyphs drawn so far;
a byte without a glyph draws nothing. -/
def renderEvents (G : Nat → Glyph) (a : Nat) (acks : Nat → Bool) :
    Nat → Nat → List Nat → List Ev
  | _, _, [] => []
  | p, k, c :: cs =>
    readTx a c (acks (p + 1)) ++
      (if c ∈ printCharCases then
        drawEvents (k / 21) (k % 21 * 6) (G c) ++ renderEvents G a acks (p + 18) (k + 1) cs
       else renderEvents G a acks (p + 2) k cs)

/-- The events of the passes of the read loop of `readDisplayPage`, whatever the bus
answers: pass number `i` reads the byte `rx (pos + i)` in one transaction from the device
address `a` and is followed by the events `p.2` of `printChar` for that byte. -/
def loopEvents (a : Nat) (rx : Nat → Nat) : Nat → List (Bool × List Ev) → List Ev
  | _, [] => []
  | pos, p :: ps => readTx a (rx pos % 256) p.1 ++ p.2 ++ loopEvents a rx (pos + 1) ps

/-- The bytes shifted out, in order. -/
def sends : List Ev → List Nat
  | [] => []
  | Ev.send b :: es => b :: sends es
  | _ :: es => sends es

/-- The bytes shifted in, in order. -/
def recvs : List Ev → List Nat
  | [] => []
  | Ev.recv b :: es => b :: recvs es
  | _ :: es => recvs es

/-- The bytes that were shifted out and then acknowledged, in order. -/
def ackedWrites : List Ev → List Nat
  | [] => []
  | Ev.send b :: Ev.ack true :: es => b :: ackedWrites es
  | _ :: es => ackedWrites es

/-- The arguments of the calls of `readDisplayPage`, in order. -/
def renderArgs : List Ev → List Nat
  | [] => []
  | Ev.renderCall n :: es => n :: renderArgs es
  | _ :: es => renderArgs es

/-- Number of calls of `printSegment`. -/
def drawCalls : List Ev → Nat
  | [] => 0
  | Ev.drawCall :: es => drawCalls es + 1
  | _ :: es => drawCalls es

/-- Events of a write transaction: start, stop, a byte shifted out, an acknowledge
pulse. -/
def busWrite : Ev → Bool
  | Ev.start => true
  | Ev.stop => true
  | Ev.send _ => true
  | Ev.ack _ => true
  | _ => false

/-- The result `r` of running a piece of the firmware from the state `s`: the trace grew
by events that all satisfy `P`, the page index and the oracle are untouched, and the
read position advanced by the number of bytes shifted in. -/
def Ext (P : Ev → Prop) (s : State) (r : Nat × State) : Prop :=
  ∃ evs, r.2.trace = s.trace ++ evs ∧ (∀ e ∈ evs, P e) ∧
    r.2.currentsubPage = s.currentsubPage ∧ r.2.acks = s.acks ∧ r.2.rx = s.rx ∧
    r.2.rxPos = s.rxPos + (recvs evs).length

/-! ## Vocabulary: runs of the handler -/

/-- A run of the handler with only the "next" input low: `PB3` reads low at the first
test and `PB4` reads high at the second. -/
def OnlyNext (p : Nat × Nat) : Prop :=
  p.1 &&& (1 <<< PB3) = 0 ∧ p.2 &&& (1 <<< PB4) ≠ 0

/-- A run of the handler with only the "previous" input low. -/
def OnlyPrevious (p : Nat × Nat) : Prop :=
  p.1 &&& (1 <<< PB3) ≠ 0 ∧ p.2 &&& (1 <<< PB4) = 0

/-- Consecutive runs of the handler, one for each pair of `PINB` readings. -/
def runISR (G : Nat → Glyph) (ps : List (Nat × Nat)) (s : State) : State :=
  ps.foldl (fun s p => ISR G p.1 p.2 s) s

/-- The two calls `clearScreen(); readDisplayPage(_g_currentsubPage);` of the handler. -/
def redraw (G : Nat → Glyph) (s : State) : State :=
  (readDisplayPage G (toUInt8 (clearScreen s).2.currentsubPage) (clearScreen s).2).2

/-- The body of the first `if` of the handler: one page forward, then redraw. -/
def pressNext (G : Nat → Glyph) (s : State) : State :=
  redraw G
    (if wrapInt8 (s.currentsubPage + 1) ≥ 16 then { s with currentsubPage := 0 }
     else { s with currentsubPage := wrapInt8 (s.currentsubPage + 1) })

/-- The body of the second `if` of the handler: one page back, then redraw. -/
def pressPrevious (G : Nat → Glyph) (s : State) : State :=
  redraw G
    (if wrapInt8 (s.currentsubPage - 1) < 0 then { s with currentsubPage := 15 }
     else { s with currentsubPage := wrapInt8 (s.currentsubPage - 1) })

/-! ## Vocabulary: the fault output -/

/-- The fault output: bit 1 of `PORTB`. -/
def faultBit (s : State) : Bool := s.PORTB.testBit 1

/-- The state of `main` after the register set-up, before `initSSD1306()`. -/
def bootPins (s : State) : State :=
  { initI2C s with PORTB := ((initI2C s).PORTB ||| ((1 <<< PB3) ||| (1 <<< PB4))) % 256 }

/-- The state in which `main` calls `readDisplayPage(0)`. -/
def beforeRender (s : State) : State :=
  (clearScreen (initSSD1306 (bootPins s)).2).2

/-- A relation between the state before and the state after that every step of the
firmware on the bus, on the cursor and on the ghost events respects. -/
structure Stable (R : State → State → Prop) : Prop where
  refl : ∀ s, R s s
  trans : ∀ a b c, R a b → R b c → R a c
  start : ∀ s, R s (StartCondition s)
  stop : ∀ s, R s (I2CDisconnect s)
  send : ∀ m b s, R s (USISend m b s)
  ack : ∀ s, R s (Acknowledge s).2
  recv : ∀ m s, R s (USIReceive m s).2
  cursor : ∀ s lp ln, R s { s with linepos := lp, linenum := ln }
  ghost : ∀ s e, R s { s with trace := s.trace ++ [e] }

/-! ## Vocabulary: open transactions -/

/-- A byte shifted out or an acknowledge pulse. -/
def byteEv : Ev → Bool
  | Ev.send _ => true
  | Ev.ack _ => true
  | _ => false

/-- The trace `t` continues the trace `t0`. -/
def After (t0 t : List Ev) : Prop :=
  ∃ evs, t = t0 ++ evs

/-- The trace `t` continues `t0` and is inside a transaction: after its last start
condition there are only bytes and acknowledge pulses, no stop condition. -/
def InTx (t0 t : List Ev) : Prop :=
  ∃ pre w, t = t0 ++ (pre ++ Ev.start :: w) ∧ ∀ e ∈ w, byteEv e = true

/-- A result that, when it is a failure, leaves the bus inside a transaction whose last
event is a byte that was not acknowledged: since the trace `t0`, some events `pre`, a
start condition, bytes and acknowledge pulses `w`, and the refused byte `b`. -/
def FailsOpen (t0 : List Ev) (r : Nat × State) : Prop :=
  r.1 = 0 →
    ∃ pre w b, r.2.trace = t0 ++ (pre ++ Ev.start :: (w ++ [Ev.send b, Ev.ack false])) ∧
      ∀ e ∈ w, byteEv e = true

/-! ## Concrete inputs -/

/-- A glyph table for concrete runs: the glyph of the code `c` is `c, c+1, ..., c+5`. -/
def demoGlyphs : Nat → Glyph :=
  fun c => ⟨c, c + 1, c + 2, c + 3, c + 4, c + 5⟩

/-- The state after reset on a bus where nothing answers: no byte is acknowledged and
every byte read is `0`. -/
def deadBus : State :=
  { linepos := 0, linenum := 0, currentsubPage := 0, PORTB := 0,
    acks := fun _ => false, ackPos := 0, rx := fun _ => 0, rxPos := 0, trace := [] }

/-- The state after reset on a bus where every byte is acknowledged and the memory
holds the letter `A` everywhere. -/
def goodBus : State :=
  { linepos := 0, linenum := 0, currentsubPage := 0, PORTB := 0,
    acks := fun _ => true, ackPos := 0, rx := fun _ => 65, rxPos := 0, trace := [] }

/-- The state after reset on a bus where every byte is acknowledged except the one that
meets the acknowledge pulse number `k` (counted from 0). -/
def glitchBus (k : Nat) : State :=
  { linepos := 0, linenum := 0, currentsubPage := 0, PORTB := 0,
    acks := fun n => n != k, ackPos := 0, rx := fun _ => 65, rxPos := 0, trace := [] }

/-- The state after reset on a bus where every written byte is acknowledged, the memory
holds the letter `A` everywhere, and the line reads high at every acknowledge pulse that
follows a byte read during a `clearScreen` and a `readDisplayPage`: these are the pulses
number `1037 + 18 * i` for `i` in `0..127`. -/
def readNackBus : State :=
  { linepos := 0, linenum := 0, currentsubPage := 0, PORTB := 0,
    acks := fun n => !(decide (1037 ≤ n) && decide (n < 3341) && (n - 1037) % 18 == 0),
    ackPos := 0, rx := fun _ => 65, rxPos := 0, trace := [] }

/-- The state after `n` calls of `printSegment` with the glyph of `A`. -/
def drawMany : Nat → State → State
  | 0, s => s
  | n + 1, s => drawMany n (printSegment (demoGlyphs 65) s).2


/-! ## The bus primitives -/

@[simp] theorem wr_linepos (b : Nat) (s : State) : (wr b s).linepos = s.linepos := rfl
@[simp] theorem wr_linenum (b : Nat) (s : State) : (wr b s).linenum = s.linenum := rfl
@[simp] theorem wr_currentsubPage (b : Nat) (s : State) :
    (wr b s).currentsubPage = s.currentsubPage := rfl
@[simp] theorem wr_acks (b : Nat) (s : State) : (wr b s).acks = s.acks := rfl
@[simp] theorem wr_ackPos (b : Nat) (s : State) : (wr b s).ackPos = s.ackPos + 1 := rfl
@[simp] theorem wr_rx (b : Nat) (s : State) : (wr b s).rx = s.rx := rfl
@[simp] theorem wr_rxPos (b : Nat) (s : State) : (wr b s).rxPos = s.rxPos := rfl
@[simp] theorem wr_trace (b : Nat) (s : State) :
    (wr b s).trace = s.trace ++ [Ev.send (b % 256), Ev.ack (s.acks s.ackPos)] := by
  simp [wr]

@[simp] theorem StartCondition_acks_eq (s : State) : (StartCondition s).acks = s.acks := rfl
@[simp] theorem StartCondition_rx_eq (s : State) : (StartCondition s).rx = s.rx := rfl
@[simp] theorem I2CDisconnect_acks_eq (s : State) : (I2CDisconnect s).acks = s.acks := rfl
@[simp] theorem I2CDisconnect_rx_eq (s : State) : (I2CDisconnect s).rx = s.rx := rfl
@[simp] theorem Acknowledge_acks_eq (s : State) : (Acknowledge s).2.acks = s.acks := rfl
@[simp] theorem Acknowledge_rx_eq (s : State) : (Acknowledge s).2.rx = s.rx := rfl
@[simp] theorem USIReceive_acks_eq (m : Nat) (s : State) :
    (USIReceive m s).2.acks = s.acks := rfl
@[simp] theorem USIReceive_rx_eq (m : Nat) (s : State) : (USIReceive m s).2.rx = s.rx := rfl

@[simp] theorem nextLine_currentsubPage (s : State) :
    (nextLine s).currentsubPage = s.currentsubPage := by
  simp only [nextLine]; split_ifs <;> rfl
@[simp] theorem nextLine_acks (s : State) : (nextLine s).acks = s.acks := by
  simp only [nextLine]; split_ifs <;> rfl
@[simp] theorem nextLine_ackPos (s : State) : (nextLine s).ackPos = s.ackPos := by
  simp only [nextLine]; split_ifs <;> rfl
@[simp] theorem nextLine_rx (s : State) : (nextLine s).rx = s.rx := by
  simp only [nextLine]; split_ifs <;> rfl
@[simp] theorem nextLine_rxPos (s : State) : (nextLine s).rxPos = s.rxPos := by
  simp only [nextLine]; split_ifs <;> rfl
@[simp] theorem nextLine_trace (s : State) : (nextLine s).trace = s.trace := by
  simp only [nextLine]; split_ifs <;> rfl

theorem nextLine_linepos (s : State) :
    (nextLine s).linepos = if s.linepos = 21 then 0 else s.linepos := by
  simp only [nextLine]; split_ifs <;> rfl

theorem nextLine_linenum (s : State) :
    (nextLine s).linenum =
      if s.linepos = 21 then
        (if (s.linenum + 1) % 256 = 8 then 0 else (s.linenum + 1) % 256)
      else s.linenum := by
  simp only [nextLine]; split_ifs <;> rfl

theorem sendByte_eq (b : Nat) (K : State → Nat × State) (s : State) :
    sendByte b K s = if s.acks s.ackPos = true then K (wr b s) else (0, wr b s) := by
  unfold sendByte wr
  by_cases h : s.acks s.ackPos <;> simp [h]

theorem sendByte_ack (b : Nat) (K : State → Nat × State) (s : State)
    (h : s.acks s.ackPos = true) : sendByte b K s = K (wr b s) := by
  rw [sendByte_eq, if_pos h]

theorem sendByte_nack (b : Nat) (K : State → Nat × State) (s : State)
    (h : s.acks s.ackPos = false) : sendByte b K s = (0, wr b s) := by
  rw [sendByte_eq, if_neg (by simp [h])]

theorem callChecked_connect (a : Nat) (K : State → Nat × State) :
    callChecked (I2CMasterConnect a) K = fun s => sendByte a K (StartCondition s) := by
  funext s
  unfold callChecked I2CMasterConnect sendByte
  by_cases h : s.acks s.ackPos <;> simp [h]

theorem callChecked_control (c : Nat) (K : State → Nat × State) :
    callChecked (SSD1306SendControlByte c) K = sendByte c K := by
  funext s
  unfold callChecked SSD1306SendControlByte sendByte
  by_cases h : s.acks s.ackPos <;> simp [h]

theorem callChecked_eq (f K : State → Nat × State) (s : State) :
    callChecked f K s = if (f s).1 = 0 then (0, (f s).2) else K (f s).2 := rfl

/-! ## What every piece of the firmware leaves untouched -/

theorem recvs_append (xs ys : List Ev) : recvs (xs ++ ys) = recvs xs ++ recvs ys := by
  induction xs with
  | nil => rfl
  | cons e es ih => cases e <;> simp [recvs, ih]

theorem renderArgs_append (xs ys : List Ev) :
    renderArgs (xs ++ ys) = renderArgs xs ++ renderArgs ys := by
  induction xs with
  | nil => rfl
  | cons e es ih => cases e <;> simp [renderArgs, ih]

theorem recvs_eq_nil (evs : List Ev) (h : ∀ e ∈ evs, busWrite e = true) : recvs evs = [] := by
  induction evs with
  | nil => rfl
  | cons e es ih =>
    have he := h e (List.mem_cons_self _ _)
    have ih2 := ih (fun x hx => h x (List.mem_cons_of_mem _ hx))
    cases e <;> simp_all [recvs, busWrite]

theorem ext_refl (P : Ev → Prop) (r : Nat) (s : State) : Ext P s (r, s) :=
  ⟨[], by simp, by simp, rfl, rfl, rfl, by simp [recvs]⟩

theorem ext_trans {P : Ev → Prop} {s s1 : State} {r : Nat × State} (x : Nat)
    (h1 : Ext P s (x, s1)) (h2 : Ext P s1 r) : Ext P s r := by
  obtain ⟨e1, ht1, hp1, hc1, ha1, hr1, hx1⟩ := h1
  obtain ⟨e2, ht2, hp2, hc2, ha2, hr2, hx2⟩ := h2
  refine ⟨e1 ++ e2, ?_, ?_, ?_, ?_, ?_, ?_⟩
  · rw [ht2, ht1, List.append_assoc]
  · intro e he
    rcases List.mem_append.1 he with h | h
    · exact hp1 e h
    · exact hp2 e h
  · rw [hc2, hc1]
  · rw [ha2, ha1]
  · rw [hr2, hr1]
  · rw [hx2, hx1, recvs_append, List.length_append, Nat.add_assoc]

theorem ext_wr {P : Ev → Prop} (hW : ∀ e, busWrite e = true → P e) (b : Nat) (s : State) :
    Ext P s (0, wr b s) :=
  ⟨[Ev.send (b % 256), Ev.ack (s.acks s.ackPos)], by simp,
    by intro e he; simp at he; rcases he with h | h <;> subst h <;> exact hW _ rfl,
    rfl, rfl, rfl, by simp [recvs]⟩

theorem ext_start {P : Ev → Prop} (hW : ∀ e, busWrite e = true → P e) (s : State) :
    Ext P s (0, StartCondition s) :=
  ⟨[Ev.start], by simp,
    by intro e he; simp at he; subst he; exact hW _ rfl,
    rfl, rfl, rfl, by simp [recvs]⟩

theorem ext_stop {P : Ev → Prop} (hW : ∀ e, busWrite e = true → P e) (x : Nat) (s : State) :
    Ext P s (x, I2CDisconnect s) :=
  ⟨[Ev.stop], by simp,
    by intro e he; simp at he; subst he; exact hW _ rfl,
    rfl, rfl, rfl, by simp [recvs]⟩

theorem ext_nextLine (P : Ev → Prop) (s : State) : Ext P s (0, nextLine s) :=
  ⟨[], by simp, by simp, by simp, by simp, by simp, by simp [recvs]⟩

theorem ext_sendByte {P : Ev → Prop} (hW : ∀ e, busWrite e = true → P e) (b : Nat)
    (K : State → Nat × State) (s : State) (hK : ∀ s1, Ext P s1 (K s1)) :
    Ext P s (sendByte b K s) := by
  rw [sendByte_eq]
  split_ifs
  · exact ext_trans 0 (ext_wr hW b s) (hK _)
  · exact ext_wr hW b s

theorem ext_connect {P : Ev → Prop} (hW : ∀ e, busWrite e = true → P e) (a : Nat)
    (K : State → Nat × State) (s : State) (hK : ∀ s1, Ext P s1 (K s1)) :
    Ext P s (callChecked (I2CMasterConnect a) K s) := by
  rw [callChecked_connect]
  exact ext_trans 0 (ext_start hW s) (ext_sendByte hW _ _ _ hK)

theorem ext_control {P : Ev → Prop} (hW : ∀ e, busWrite e = true → P e) (c : Nat)
    (K : State → Nat × State) (s : State) (hK : ∀ s1, Ext P s1 (K s1)) :
    Ext P s (callChecked (SSD1306SendControlByte c) K s) := by
  rw [callChecked_control]
  exact ext_sendByte hW _ _ _ hK

theorem ext_callChecked {P : Ev → Prop} (f K : State → Nat × State) (s : State)
    (hf : Ext P s (f s)) (hK : ∀ s1, Ext P s1 (K s1)) : Ext P s (callChecked f K s) := by
  rw [callChecked_eq]
  split_ifs
  · exact hf
  · exact ext_trans (f s).1 hf (hK _)

theorem ext_clearLoop {P : Ev → Prop} (hW : ∀ e, busWrite e = true → P e) (n : Nat)
    (K : State → Nat × State) (hK : ∀ s1, Ext P s1 (K s1)) (s : State) :
    Ext P s (clearLoop n K s) := by
  induction n generalizing s with
  | zero => exact hK s
  | succ n ih => exact ext_sendByte hW _ _ _ ih

theorem ext_translatePos {P : Ev → Prop} (hW : ∀ e, busWrite e = true → P e) (s : State) :
    Ext P s (translatePos s) := by
  unfold translatePos
  refine ext_connect hW _ _ _ fun s => ext_control hW _ _ _ fun s => ?_
  refine ext_trans 0 (ext_nextLine P s) ?_
  refine ext_sendByte hW _ _ _ fun s => ext_sendByte hW _ _ _ fun s => ?_
  refine ext_sendByte hW _ _ _ fun s => ext_sendByte hW _ _ _ fun s => ?_
  refine ext_sendByte hW _ _ _ fun s => ext_sendByte hW _ _ _ fun s => ?_
  exact ext_stop hW 1 s

theorem ext_clearScreen {P : Ev → Prop} (hW : ∀ e, busWrite e = true → P e) (s : State) :
    Ext P s (clearScreen s) := by
  unfold clearScreen
  refine ext_connect hW _ _ _ fun s => ext_control hW _ _ _ fun s => ?_
  refine ext_sendByte hW _ _ _ fun s => ext_sendByte hW _ _ _ fun s => ?_
  refine ext_sendByte hW _ _ _ fun s => ext_sendByte hW _ _ _ fun s => ?_
  refine ext_sendByte hW _ _ _ fun s => ext_sendByte hW _ _ _ fun s => ?_
  refine ext_trans 0 (ext_stop hW 0 s) ?_
  refine ext_connect hW _ _ _ fun s => ext_control hW _ _ _ fun s => ?_
  refine ext_clearLoop hW _ _ (fun s => ?_) s
  exact ext_stop hW 1 s

theorem ext_initSSD1306 {P : Ev → Prop} (hW : ∀ e, busWrite e = true → P e) (s : State) :
    Ext P s (initSSD1306 s) := by
  unfold initSSD1306
  refine ext_connect hW _ _ _ fun s => ext_control hW _ _ _ fun s => ?_
  iterate 25 refine ext_sendByte hW _ _ _ fun s => ?_
  exact ext_stop hW 1 s

theorem ext_printSegment {P : Ev → Prop} (hW : ∀ e, busWrite e = true → P e)
    (hD : P Ev.drawCall) (g : Glyph) (s : State) : Ext P s (printSegment g s) := by
  unfold printSegment
  have h0 : Ext P s (0, { s with trace := s.trace ++ [Ev.drawCall] }) :=
    ⟨[Ev.drawCall], rfl, by intro e he; simp at he; subst he; exact hD,
      rfl, rfl, rfl, by simp [recvs]⟩
  refine ext_trans 0 h0 (ext_trans _ (ext_translatePos hW _) ?_)
  refine ext_connect hW _ _ _ fun s => ext_control hW _ _ _ fun s => ?_
  iterate 6 refine ext_sendByte hW _ _ _ fun s => ?_
  exact ext_stop hW 1 _

theorem ext_printChar {P : Ev → Prop} (hW : ∀ e, busWrite e = true → P e)
    (hD : P Ev.drawCall) (G : Nat → Glyph) (c : Nat) (s : State) :
    Ext P s (printChar G c s) := by
  unfold printChar
  split_ifs
  · exact ext_callChecked _ _ _ (ext_printSegment hW hD _ _) fun s => ext_refl P 1 s
  · exact ext_refl P 1 s

theorem ext_readLoop {P : Ev → Prop} (hW : ∀ e, busWrite e = true → P e)
    (hD : P Ev.drawCall) (hR : ∀ b, P (Ev.recv b)) (G : Nat → Glyph) (a n : Nat)
    (K : State → Nat × State) (hK : ∀ s1, Ext P s1 (K s1)) (s : State) :
    Ext P s (readLoop G a n K s) := by
  induction n generalizing s with
  | zero => exact hK s
  | succ n ih =>
    unfold readLoop
    refine ext_connect hW _ _ _ fun s => ?_
    have h1 : Ext P s (0, (USIReceive USI_TIMER_MASK_8BIT s).2) :=
      ⟨[Ev.recv (s.rx s.rxPos % 256)], by simp, by intro e he; simp at he; subst he; exact hR _,
        rfl, rfl, rfl, by simp [recvs]⟩
    have h2 : ∀ t : State, Ext P t (0, (Acknowledge t).2) := fun t =>
      ⟨[Ev.ack (t.acks t.ackPos)], by simp, by intro e he; simp at he; subst he; exact hW _ rfl,
        rfl, rfl, rfl, by simp [recvs]⟩
    refine ext_trans 0 h1 (ext_trans 0 (h2 _) (ext_trans 0 (ext_stop hW 0 _) ?_))
    exact ext_callChecked _ _ _ (ext_printChar hW hD _ _ _) ih

theorem ext_readDisplayPage {P : Ev → Prop} (hW : ∀ e, busWrite e = true → P e)
    (hD : P Ev.drawCall) (hR : ∀ b, P (Ev.recv b)) (G : Nat → Glyph) (n : Nat) (s : State) :
    Ext P { s with trace := s.trace ++ [Ev.renderCall n] } (readDisplayPage G n s) := by
  unfold readDisplayPage
  simp only []
  split_ifs
  · refine ext_connect hW _ _ _ fun s => ext_sendByte hW _ _ _ fun s => ?_
    refine ext_trans 0 (ext_stop hW 0 _) ?_
    exact ext_readLoop hW hD hR _ _ _ _ (fun s => ext_refl P 1 s) _
  · exact ext_refl P 1 _

/-! ## The page navigator -/

theorem renderArgs_eq_nil (evs : List Ev) (h : ∀ e ∈ evs, renderArgs [e] = []) :
    renderArgs evs = [] := by
  induction evs with
  | nil => rfl
  | cons e es ih =>
    have he := h e (List.mem_cons_self _ _)
    have ih2 := ih (fun x hx => h x (List.mem_cons_of_mem _ hx))
    cases e <;> simp_all [renderArgs]

theorem redraw_spec (G : Nat → Glyph) (s : State) :
    (redraw G s).currentsubPage = s.currentsubPage ∧
      ∃ evs, (redraw G s).trace = s.trace ++ evs ∧
        renderArgs evs = [toUInt8 s.currentsubPage] := by
  have hP : ∀ e, busWrite e = true → renderArgs [e] = [] := by
    intro e he; cases e <;> simp_all [renderArgs, busWrite]
  obtain ⟨e1, ht1, hp1, hc1, -, -, -⟩ := ext_clearScreen hP s
  obtain ⟨e2, ht2, hp2, hc2, -, -, -⟩ :=
    ext_readDisplayPage hP rfl (fun _ => rfl) G (toUInt8 (clearScreen s).2.currentsubPage)
      (clearScreen s).2
  simp only [] at ht2 hc2
  unfold redraw
  refine ⟨by rw [hc2, hc1], e1 ++ Ev.renderCall (toUInt8 s.currentsubPage) :: e2, ?_, ?_⟩
  · rw [ht2, ht1, hc1]; simp
  · rw [renderArgs_append, renderArgs_eq_nil e1 hp1]
    simp [renderArgs, renderArgs_eq_nil e2 hp2]

theorem ISR_unfold (G : Nat → Glyph) (p1 p2 : Nat) (s : State) :
    ISR G p1 p2 s =
      if p2 &&& (1 <<< PB4) = 0 then
        pressPrevious G (if p1 &&& (1 <<< PB3) = 0 then pressNext G s else s)
      else if p1 &&& (1 <<< PB3) = 0 then pressNext G s else s := by
  unfold ISR pressPrevious pressNext redraw
  simp only []

theorem pressNext_spec (G : Nat → Glyph) (s : State)
    (h0 : 0 ≤ s.currentsubPage) (h15 : s.currentsubPage ≤ 15) :
    (pressNext G s).currentsubPage = (s.currentsubPage + 1) % 16 ∧
      ∃ evs, (pressNext G s).trace = s.trace ++ evs ∧ ∀ n ∈ renderArgs evs, n ≤ 15 := by
  unfold pressNext
  have hw : wrapInt8 (s.currentsubPage + 1) = s.currentsubPage + 1 := by
    unfold wrapInt8; omega
  rw [hw]
  split_ifs with h
  · obtain ⟨hc, evs, ht, hr⟩ := redraw_spec G { s with currentsubPage := 0 }
    refine ⟨by rw [hc]; simp only []; omega, evs, ht, ?_⟩
    rw [hr]; simp [toUInt8]
  · obtain ⟨hc, evs, ht, hr⟩ :=
      redraw_spec G { s with currentsubPage := s.currentsubPage + 1 }
    refine ⟨by rw [hc]; simp only []; omega, evs, ht, ?_⟩
    rw [hr]; simp only [List.mem_singleton, forall_eq, toUInt8]; omega

theorem pressPrevious_spec (G : Nat → Glyph) (s : State)
    (h0 : 0 ≤ s.currentsubPage) (h15 : s.currentsubPage ≤ 15) :
    (pressPrevious G s).currentsubPage = (s.currentsubPage - 1 + 16) % 16 ∧
      ∃ evs, (pressPrevious G s).trace = s.trace ++ evs ∧
        ∀ n ∈ renderArgs evs, n ≤ 15 := by
  unfold pressPrevious
  have hw : wrapInt8 (s.currentsubPage - 1) = s.currentsubPage - 1 := by
    unfold wrapInt8; omega
  rw [hw]
  split_ifs with h
  · obtain ⟨hc, evs, ht, hr⟩ := redraw_spec G { s with currentsubPage := 15 }
    refine ⟨by rw [hc]; simp only []; omega, evs, ht, ?_⟩
    rw [hr]; simp [toUInt8]
  · obtain ⟨hc, evs, ht, hr⟩ :=
      redraw_spec G { s with currentsubPage := s.currentsubPage - 1 }
    refine ⟨by rw [hc]; simp only []; omega, evs, ht, ?_⟩
    rw [hr]; simp only [List.mem_singleton, forall_eq, toUInt8]; omega


/-- One run of the handler from a page index in `0..15`: the new index, and the calls of
`readDisplayPage` made on the way. -/
theorem ISR_spec (G : Nat → Glyph) (p1 p2 : Nat) (s : State)
    (h0 : 0 ≤ s.currentsubPage) (h15 : s.currentsubPage ≤ 15) :
    (ISR G p1 p2 s).currentsubPage =
        (if p2 &&& (1 <<< PB4) = 0 then
          ((if p1 &&& (1 <<< PB3) = 0 then (s.currentsubPage + 1) % 16
            else s.currentsubPage) - 1 + 16) % 16
         else if p1 &&& (1 <<< PB3) = 0 then (s.currentsubPage + 1) % 16
         else s.currentsubPage) ∧
      ∃ evs, (ISR G p1 p2 s).trace = s.trace ++ evs ∧ ∀ n ∈ renderArgs evs, n ≤ 15 := by
  rw [ISR_unfold]
  obtain ⟨hn, en, htn, hrn⟩ := pressNext_spec G s h0 h15
  by_cases h1 : p1 &&& (1 <<< PB3) = 0
  · by_cases h2 : p2 &&& (1 <<< PB4) = 0
    · simp only [h1, h2, if_true]
      obtain ⟨hp, ep, htp, hrp⟩ :=
        pressPrevious_spec G (pressNext G s) (by rw [hn]; omega) (by rw [hn]; omega)
      refine ⟨by rw [hp, hn], en ++ ep, by rw [htp, htn, List.append_assoc], ?_⟩
      intro n hmem
      rw [renderArgs_append] at hmem
      rcases List.mem_append.1 hmem with h | h
      · exact hrn n h
      · exact hrp n h
    · simp only [h1, h2, if_true, if_false]
      exact ⟨hn, en, htn, hrn⟩
  · by_cases h2 : p2 &&& (1 <<< PB4) = 0
    · simp only [h1, h2, if_true, if_false]
      exact pressPrevious_spec G s h0 h15
    · simp only [h1, h2, if_false]
      exact ⟨trivial, [], by simp, by simp [renderArgs]⟩

theorem ISR_range (G : Nat → Glyph) (p1 p2 : Nat) (s : State)
    (h0 : 0 ≤ s.currentsubPage) (h15 : s.currentsubPage ≤ 15) :
    0 ≤ (ISR G p1 p2 s).currentsubPage ∧ (ISR G p1 p2 s).currentsubPage ≤ 15 := by
  rw [(ISR_spec G p1 p2 s h0 h15).1]
  split_ifs <;> omega

theorem runISR_next (G : Nat → Glyph) (ps : List (Nat × Nat)) (s : State)
    (h0 : 0 ≤ s.currentsubPage) (h15 : s.currentsubPage ≤ 15)
    (hps : ∀ p ∈ ps, OnlyNext p) :
    (runISR G ps s).currentsubPage = (s.currentsubPage + ps.length) % 16 := by
  induction ps generalizing s with
  | nil => simp [runISR]; omega
  | cons p ps ih =>
    have hp := hps p (List.mem_cons_self _ _)
    have h1 := (ISR_spec G p.1 p.2 s h0 h15).1
    rw [if_neg hp.2, if_pos hp.1] at h1
    have hr := ISR_range G p.1 p.2 s h0 h15
    have := ih (ISR G p.1 p.2 s) hr.1 hr.2 (fun q hq => hps q (List.mem_cons_of_mem _ hq))
    simp only [runISR, List.foldl_cons] at this ⊢
    rw [this, h1, List.length_cons]
    push_cast
    omega

theorem runISR_previous (G : Nat → Glyph) (ps : List (Nat × Nat)) (s : State)
    (h0 : 0 ≤ s.currentsubPage) (h15 : s.currentsubPage ≤ 15)
    (hps : ∀ p ∈ ps, OnlyPrevious p) :
    (runISR G ps s).currentsubPage = (s.currentsubPage + 15 * ps.length) % 16 := by
  induction ps generalizing s with
  | nil => simp [runISR]; omega
  | cons p ps ih =>
    have hp := hps p (List.mem_cons_self _ _)
    have h1 := (ISR_spec G p.1 p.2 s h0 h15).1
    rw [if_pos hp.2, if_neg hp.1] at h1
    have hr := ISR_range G p.1 p.2 s h0 h15
    have := ih (ISR G p.1 p.2 s) hr.1 hr.2 (fun q hq => hps q (List.mem_cons_of_mem _ hq))
    simp only [runISR, List.foldl_cons] at this ⊢
    rw [this, h1, List.length_cons]
    push_cast
    omega

/-! ## C1: sixteen steps in one direction return to the start -/

/-- C1. From a page index `i` in `0..15`, whatever the bus answers: a run of the handler
with only the "next" input low sets the index to `(i + 1) mod 16`, a run with only the
"previous" input low sets it to `(i - 1 + 16) mod 16`, and sixteen consecutive runs of
either kind bring the index back to `i`. -/
theorem page_cycle_sixteen (G : Nat → Glyph) (s : State)
    (h0 : 0 ≤ s.currentsubPage) (h15 : s.currentsubPage ≤ 15) :
    (∀ p, OnlyNext p →
        (ISR G p.1 p.2 s).currentsubPage = (s.currentsubPage + 1) % 16) ∧
    (∀ p, OnlyPrevious p →
        (ISR G p.1 p.2 s).currentsubPage = (s.currentsubPage - 1 + 16) % 16) ∧
    (∀ ps : List (Nat × Nat), ps.length = 16 → (∀ p ∈ ps, OnlyNext p) →
        (runISR G ps s).currentsubPage = s.currentsubPage) ∧
    (∀ ps : List (Nat × Nat), ps.length = 16 → (∀ p ∈ ps, OnlyPrevious p) →
        (runISR G ps s).currentsubPage = s.currentsubPage) := by
  refine ⟨?_, ?_, ?_, ?_⟩
  · intro p hp
    have h1 := (ISR_spec G p.1 p.2 s h0 h15).1
    rwa [if_neg hp.2, if_pos hp.1] at h1
  · intro p hp
    have h1 := (ISR_spec G p.1 p.2 s h0 h15).1
    rwa [if_pos hp.2, if_neg hp.1] at h1
  · intro ps hl hps
    rw [runISR_next G ps s h0 h15 hps, hl]
    push_cast
    omega
  · intro ps hl hps
    rw [runISR_previous G ps s h0 h15 hps, hl]
    push_cast
    omega

theorem page_cycle_sixteen_witness :
    (runISR demoGlyphs (List.replicate 16 (0xF7, 0xFF)) deadBus).currentsubPage =
      deadBus.currentsubPage :=
  (page_cycle_sixteen demoGlyphs deadBus (by decide) (by decide)).2.2.1
    (List.replicate 16 (0xF7, 0xFF)) (by simp)
    (by intro p hp; rw [List.eq_of_mem_replicate hp]; exact ⟨by decide, by decide⟩)

/-! ## C2: the page index stays in `0..15` -/

theorem runISR_inv (G : Nat → Glyph) (ps : List (Nat × Nat)) (s : State)
    (h0 : 0 ≤ s.currentsubPage) (h15 : s.currentsubPage ≤ 15) :
    (0 ≤ (runISR G ps s).currentsubPage ∧ (runISR G ps s).currentsubPage ≤ 15) ∧
      ∃ evs, (runISR G ps s).trace = s.trace ++ evs ∧ ∀ n ∈ renderArgs evs, n ≤ 15 := by
  induction ps generalizing s with
  | nil => exact ⟨⟨h0, h15⟩, [], by simp [runISR], by simp [renderArgs]⟩
  | cons p ps ih =>
    obtain ⟨-, e1, ht1, hr1⟩ := ISR_spec G p.1 p.2 s h0 h15
    have hr := ISR_range G p.1 p.2 s h0 h15
    obtain ⟨hc, e2, ht2, hr2⟩ := ih (ISR G p.1 p.2 s) hr.1 hr.2
    simp only [runISR, List.foldl_cons] at hc ht2 ⊢
    refine ⟨hc, e1 ++ e2, by rw [ht2, ht1, List.append_assoc], ?_⟩
    intro n hmem
    rw [renderArgs_append] at hmem
    rcases List.mem_append.1 hmem with h | h
    · exact hr1 n h
    · exact hr2 n h

/-- C2. Starting from `_g_currentsubPage = 0`, after any finite sequence of runs of the
handler, whatever the two input levels at each run and whatever the bus answers, the page
index is in `0..15`, and every argument with which `readDisplayPage` was called during
these runs is in `0..15`. -/
theorem page_index_in_range (G : Nat → Glyph) (s : State) (hs : s.currentsubPage = 0)
    (ps : List (Nat × Nat)) :
    0 ≤ (runISR G ps s).currentsubPage ∧ (runISR G ps s).currentsubPage ≤ 15 ∧
      ∃ evs, (runISR G ps s).trace = s.trace ++ evs ∧ ∀ n ∈ renderArgs evs, n ≤ 15 := by
  obtain ⟨⟨h1, h2⟩, h3⟩ := runISR_inv G ps s (by omega) (by omega)
  exact ⟨h1, h2, h3⟩

theorem page_index_in_range_witness :
    0 ≤ (runISR demoGlyphs [(0xF7, 0xFF), (0xFF, 0xEF), (0, 0)] deadBus).currentsubPage ∧
      (runISR demoGlyphs [(0xF7, 0xFF), (0xFF, 0xEF), (0, 0)] deadBus).currentsubPage ≤ 15 :=
  ⟨(page_index_in_range demoGlyphs deadBus rfl [(0xF7, 0xFF), (0xFF, 0xEF), (0, 0)]).1,
   (page_index_in_range demoGlyphs deadBus rfl [(0xF7, 0xFF), (0xFF, 0xEF), (0, 0)]).2.1⟩

/-! ## C3: opposite directions in one run cancel -/

/-- C3. From a page index `i` in `0..15` (the ends `0` and `15` included), whatever the
bus answers, a run of the handler in which `PB3` reads low at the first test and `PB4`
reads low at the second leaves the page index equal to `i`. -/
theorem both_inputs_cancel (G : Nat → Glyph) (p1 p2 : Nat) (s : State)
    (h0 : 0 ≤ s.currentsubPage) (h15 : s.currentsubPage ≤ 15)
    (h3 : p1 &&& (1 <<< PB3) = 0) (h4 : p2 &&& (1 <<< PB4) = 0) :
    (ISR G p1 p2 s).currentsubPage = s.currentsubPage := by
  rw [(ISR_spec G p1 p2 s h0 h15).1, if_pos h4, if_pos h3]
  omega

theorem both_inputs_cancel_witness :
    (ISR demoGlyphs 0xE7 0xE7 { deadBus with currentsubPage := 15 }).currentsubPage = 15 :=
  both_inputs_cancel demoGlyphs 0xE7 0xE7 { deadBus with currentsubPage := 15 }
    (by decide) (by decide) (by decide) (by decide)


/-! ## Drawing a glyph on a bus that acknowledges every byte -/

/-- The cursor cell computed by `nextLine` depends on the cursor only. -/
theorem nextLine_congr (s t : State) (hp : t.linepos = s.linepos)
    (hn : t.linenum = s.linenum) :
    (nextLine t).linepos = (nextLine s).linepos ∧
      (nextLine t).linenum = (nextLine s).linenum := by
  rw [nextLine_linepos, nextLine_linepos, nextLine_linenum, nextLine_linenum, hp, hn]
  exact ⟨rfl, rfl⟩

/-- Setting the address window when the eight bytes that it writes are acknowledged. -/
theorem translatePos_acked_upto (s : State)
    (hB : ∀ j, j < 8 → s.acks (s.ackPos + j) = true) :
    (translatePos s).1 = 1 ∧
      (translatePos s).2.trace =
        s.trace ++ writeTx [OLED_SCREEN, COMMAND_STREAM, SET_PAGE_ADDRESSP,
          (nextLine s).linenum, 7, SET_COLUMN_ADDRESSP, (nextLine s).linepos * 6, 127] ∧
      (translatePos s).2.linepos = (nextLine s).linepos ∧
      (translatePos s).2.linenum = (nextLine s).linenum ∧
      (translatePos s).2.acks = s.acks ∧
      (translatePos s).2.rx = s.rx ∧
      (translatePos s).2.rxPos = s.rxPos ∧
      (translatePos s).2.ackPos = s.ackPos + 8 := by
  have hc := nextLine_congr s (wr COMMAND_STREAM (wr OLED_SCREEN (StartCondition s))) rfl rfl
  have h0 : s.acks s.ackPos = true := hB 0 (by decide)
  have h1 : s.acks (s.ackPos + 1) = true := hB 1 (by decide)
  have h2 : s.acks (s.ackPos + 2) = true := hB 2 (by decide)
  have h3 : s.acks (s.ackPos + 3) = true := hB 3 (by decide)
  have h4 : s.acks (s.ackPos + 4) = true := hB 4 (by decide)
  have h5 : s.acks (s.ackPos + 5) = true := hB 5 (by decide)
  have h6 : s.acks (s.ackPos + 6) = true := hB 6 (by decide)
  have h7 : s.acks (s.ackPos + 7) = true := hB 7 (by decide)
  unfold translatePos
  simp only [callChecked_connect, callChecked_control]
  simp [↓sendByte_ack, h0, h1, h2, h3, h4, h5, h6, h7, Nat.add_assoc, hc.1, hc.2, writeTx,
    acked]

theorem translatePos_acked (s : State) (hA : ∀ n, s.ackPos ≤ n → s.acks n = true) :
    (translatePos s).1 = 1 ∧
      (translatePos s).2.trace =
        s.trace ++ writeTx [OLED_SCREEN, COMMAND_STREAM, SET_PAGE_ADDRESSP,
          (nextLine s).linenum, 7, SET_COLUMN_ADDRESSP, (nextLine s).linepos * 6, 127] ∧
      (translatePos s).2.linepos = (nextLine s).linepos ∧
      (translatePos s).2.linenum = (nextLine s).linenum ∧
      (translatePos s).2.acks = s.acks ∧
      (translatePos s).2.rx = s.rx ∧
      (translatePos s).2.rxPos = s.rxPos ∧
      (translatePos s).2.ackPos = s.ackPos + 8 :=
  translatePos_acked_upto s (fun _ _ => hA _ (Nat.le_add_right _ _))

/-- Drawing a glyph when the sixteen bytes that it writes are acknowledged. -/
theorem printSegment_acked_upto (g : Glyph) (s : State)
    (hB : ∀ j, j < 16 → s.acks (s.ackPos + j) = true) :
    (printSegment g s).1 = 1 ∧
      (printSegment g s).2.trace =
        s.trace ++ drawEvents (nextLine s).linenum ((nextLine s).linepos * 6) g ∧
      (printSegment g s).2.linepos = ((nextLine s).linepos + 1) % 256 ∧
      (printSegment g s).2.linenum = (nextLine s).linenum ∧
      (printSegment g s).2.acks = s.acks ∧
      (printSegment g s).2.rx = s.rx ∧
      (printSegment g s).2.rxPos = s.rxPos ∧
      (printSegment g s).2.ackPos = s.ackPos + 16 := by
  obtain ⟨-, ht, hp, hn, ha, hr, hx, hk⟩ :=
    translatePos_acked_upto { s with trace := s.trace ++ [Ev.drawCall] }
      (fun j hj => hB j (by omega))
  have hc := nextLine_congr s { s with trace := s.trace ++ [Ev.drawCall] } rfl rfl
  rw [hc.1] at hp
  rw [hc.1, hc.2] at ht
  rw [hc.2] at hn
  simp only [] at ha hr hx ht hk
  have h8 : s.acks (s.ackPos + 8) = true := hB 8 (by decide)
  have h9 : s.acks (s.ackPos + 9) = true := hB 9 (by decide)
  have h10 : s.acks (s.ackPos + 10) = true := hB 10 (by decide)
  have h11 : s.acks (s.ackPos + 11) = true := hB 11 (by decide)
  have h12 : s.acks (s.ackPos + 12) = true := hB 12 (by decide)
  have h13 : s.acks (s.ackPos + 13) = true := hB 13 (by decide)
  have h14 : s.acks (s.ackPos + 14) = true := hB 14 (by decide)
  have h15 : s.acks (s.ackPos + 15) = true := hB 15 (by decide)
  unfold printSegment
  simp only [callChecked_connect, callChecked_control]
  simp [↓sendByte_ack, h8, h9, h10, h11, h12, h13, h14, h15, Nat.add_assoc, ht, hp, hn, ha,
    hr, hx, hk, drawEvents, writeTx, acked]

/-- Drawing a glyph when every byte from now on is acknowledged. -/
theorem printSegment_acked (g : Glyph) (s : State)
    (hA : ∀ n, s.ackPos ≤ n → s.acks n = true) :
    (printSegment g s).1 = 1 ∧
      (printSegment g s).2.trace =
        s.trace ++ drawEvents (nextLine s).linenum ((nextLine s).linepos * 6) g ∧
      (printSegment g s).2.linepos = ((nextLine s).linepos + 1) % 256 ∧
      (printSegment g s).2.linenum = (nextLine s).linenum ∧
      (printSegment g s).2.acks = s.acks ∧
      (printSegment g s).2.rx = s.rx ∧
      (printSegment g s).2.rxPos = s.rxPos ∧
      (printSegment g s).2.ackPos = s.ackPos + 16 :=
  printSegment_acked_upto g s (fun _ _ => hA _ (Nat.le_add_right _ _))

/-! ## C4: a glyph advances the cursor by one cell -/

/-- C4. On a bus that acknowledges every byte, from a cursor with line position in
`0..21` and row in `0..7`, `printSegment` returns success; the glyph is drawn at the cell
`(cellRow s, cellCol s)` (these are the page and, times six, the start column written to
the display, followed by the six glyph bytes); the next glyph, whatever it is, will be
drawn at the cell `(cellRow s1, cellCol s1)` of the state `s1` left by the call; and that
cell is the row-major successor of the first one over 8 rows of 21 cells, wrapping from
the last cell of row 7 to the first cell of row 0. -/
theorem glyph_advances_one_cell (g : Glyph) (s : State)
    (hp : s.linepos ≤ 21) (hn : s.linenum ≤ 7) (hA : ∀ n, s.acks n = true) :
    (printSegment g s).1 = 1 ∧
      (printSegment g s).2.trace = s.trace ++ drawEvents (cellRow s) (cellCol s * 6) g ∧
      cellRow s < 8 ∧ cellCol s < 21 ∧
      cellRow (printSegment g s).2 < 8 ∧ cellCol (printSegment g s).2 < 21 ∧
      cellIndex (printSegment g s).2 = (cellIndex s + 1) % 168 ∧
      ∀ g2 : Glyph,
        (printSegment g2 (printSegment g s).2).1 = 1 ∧
        (printSegment g2 (printSegment g s).2).2.trace =
          (printSegment g s).2.trace ++
            drawEvents (cellRow (printSegment g s).2) (cellCol (printSegment g s).2 * 6) g2 := by
  obtain ⟨h1, ht, hlp, hln, ha, -, -, -⟩ := printSegment_acked g s (fun n _ => hA n)
  have hA1 : ∀ n, (printSegment g s).2.acks n = true := by
    intro n; rw [ha]; exact hA n
  refine ⟨h1, ht, ?_, ?_, ?_, ?_, ?_, ?_⟩
  · unfold cellRow; rw [nextLine_linenum]; split_ifs <;> omega
  · unfold cellCol; rw [nextLine_linepos]; split_ifs <;> omega
  · unfold cellRow; rw [nextLine_linenum, hlp, hln, nextLine_linenum, nextLine_linepos]
    split_ifs <;> omega
  · unfold cellCol; rw [nextLine_linepos, hlp, nextLine_linepos]
    split_ifs <;> omega
  · unfold cellIndex cellRow cellCol
    rw [nextLine_linenum, nextLine_linepos, hlp, hln, nextLine_linenum, nextLine_linepos]
    split_ifs <;> omega
  · intro g2
    obtain ⟨h1', ht', -⟩ := printSegment_acked g2 (printSegment g s).2 (fun n _ => hA1 n)
    exact ⟨h1', ht'⟩

theorem glyph_advances_one_cell_witness :
    cellIndex (printSegment (demoGlyphs 65) { goodBus with linepos := 21, linenum := 7 }).2 =
      (cellIndex { goodBus with linepos := 21, linenum := 7 } + 1) % 168 :=
  (glyph_advances_one_cell (demoGlyphs 65) { goodBus with linepos := 21, linenum := 7 }
    (by decide) (by decide) (fun _ => rfl)).2.2.2.2.2.2.1

/-! ## Chains of checked bytes -/

@[simp] theorem wrAll_nil (s : State) : wrAll [] s = s := rfl
@[simp] theorem wrAll_cons (b : Nat) (bs : List Nat) (s : State) :
    wrAll (b :: bs) s = wrAll bs (wr b s) := rfl

theorem wrAll_append (xs ys : List Nat) (s : State) :
    wrAll (xs ++ ys) s = wrAll ys (wrAll xs s) := by
  induction xs generalizing s with
  | nil => rfl
  | cons b bs ih => simp [ih]

@[simp] theorem wrAll_linepos (bs : List Nat) (s : State) :
    (wrAll bs s).linepos = s.linepos := by
  induction bs generalizing s with
  | nil => rfl
  | cons b bs ih => simp [ih]

@[simp] theorem wrAll_linenum (bs : List Nat) (s : State) :
    (wrAll bs s).linenum = s.linenum := by
  induction bs generalizing s with
  | nil => rfl
  | cons b bs ih => simp [ih]

@[simp] theorem wrAll_acks (bs : List Nat) (s : State) : (wrAll bs s).acks = s.acks := by
  induction bs generalizing s with
  | nil => rfl
  | cons b bs ih => simp [ih]

@[simp] theorem wrAll_rx (bs : List Nat) (s : State) : (wrAll bs s).rx = s.rx := by
  induction bs generalizing s with
  | nil => rfl
  | cons b bs ih => simp [ih]

@[simp] theorem wrAll_rxPos (bs : List Nat) (s : State) : (wrAll bs s).rxPos = s.rxPos := by
  induction bs generalizing s with
  | nil => rfl
  | cons b bs ih => simp [ih]

@[simp] theorem wrAll_ackPos (bs : List Nat) (s : State) :
    (wrAll bs s).ackPos = s.ackPos + bs.length := by
  induction bs generalizing s with
  | nil => rfl
  | cons b bs ih => simp [ih]; omega

theorem wrAll_trace_acked (bs : List Nat) (s : State)
    (h : ∀ j, j < bs.length → s.acks (s.ackPos + j) = true) :
    (wrAll bs s).trace = s.trace ++ acked bs := by
  induction bs generalizing s with
  | nil => simp [acked]
  | cons b bs ih =>
    have h0 : s.acks s.ackPos = true := by simpa using h 0 (by simp)
    rw [wrAll_cons, ih]
    · simp [acked, h0]
    · intro j hj
      have := h (j + 1) (by simp; omega)
      simpa [Nat.add_assoc, Nat.add_comm 1 j] using this

theorem sendAll_acked (bs : List Nat) (K : State → Nat × State) (s : State)
    (h : ∀ j, j < bs.length → s.acks (s.ackPos + j) = true) :
    sendAll bs K s = K (wrAll bs s) := by
  induction bs generalizing s with
  | nil => rfl
  | cons b bs ih =>
    have h0 : s.acks s.ackPos = true := by simpa using h 0 (by simp)
    rw [sendAll, sendByte_ack _ _ _ h0, ih, wrAll_cons]
    intro j hj
    have := h (j + 1) (by simp; omega)
    simpa [Nat.add_assoc, Nat.add_comm 1 j] using this

theorem sendAll_nacked (bs : List Nat) (K : State → Nat × State) (s : State) (k : Nat)
    (hk : k < bs.length) (h : ∀ j, j < k → s.acks (s.ackPos + j) = true)
    (hn : s.acks (s.ackPos + k) = false) :
    sendAll bs K s = (0, wrAll (bs.take (k + 1)) s) := by
  induction bs generalizing s k with
  | nil => simp at hk
  | cons b bs ih =>
    cases k with
    | zero =>
      rw [sendAll, sendByte_nack _ _ _ (by simpa using hn)]
      simp
    | succ k =>
      have h0 : s.acks s.ackPos = true := by simpa using h 0 (by omega)
      rw [sendAll, sendByte_ack _ _ _ h0, ih (wr b s) k (by simpa using hk)]
      · simp
      · intro j hj
        have := h (j + 1) (by omega)
        simpa [Nat.add_assoc, Nat.add_comm 1 j] using this
      · simpa [Nat.add_assoc, Nat.add_comm 1 k] using hn

theorem sendAll_one (bs : List Nat) (K : State → Nat × State) (s : State)
    (h : (sendAll bs K s).1 = 1) :
    ∀ j, j < bs.length → s.acks (s.ackPos + j) = true := by
  induction bs generalizing s with
  | nil => intro j hj; simp at hj
  | cons b bs ih =>
    rw [sendAll, sendByte_eq] at h
    by_cases h0 : s.acks s.ackPos = true
    · rw [if_pos h0] at h
      intro j hj
      cases j with
      | zero => simpa using h0
      | succ j =>
        have := ih (wr b s) h j (by simpa using hj)
        simpa [Nat.add_assoc, Nat.add_comm 1 j] using this
    · rw [if_neg h0] at h
      simp at h

theorem clearLoop_eq_sendAll (n : Nat) (K : State → Nat × State) :
    clearLoop n K = sendAll (List.replicate n 0) K := by
  induction n with
  | zero => rfl
  | succ n ih => rw [clearLoop, ih, List.replicate_succ, sendAll]
theorem initSSD1306_eq (s : State) :
    initSSD1306 s = sendAll initBytes (fun s => (1, I2CDisconnect s)) (StartCondition s) := by
  unfold initSSD1306
  rw [callChecked_connect, callChecked_control]
  rfl

theorem clearScreen_eq (s : State) :
    clearScreen s =
      sendAll clearWindowBytes
        (fun s => sendAll clearDataBytes
          (fun s => (1, homeCursor (I2CDisconnect s)))
          (StartCondition (I2CDisconnect s)))
        (StartCondition s) := by
  unfold clearScreen
  simp only [callChecked_connect, callChecked_control, clearLoop_eq_sendAll]
  rfl

theorem sends_append (xs ys : List Ev) : sends (xs ++ ys) = sends xs ++ sends ys := by
  induction xs with
  | nil => rfl
  | cons e es ih => cases e <;> simp [sends, ih]

theorem sends_acked (bs : List Nat) : sends (acked bs) = bs.map (· % 256) := by
  induction bs with
  | nil => rfl
  | cons b bs ih => simp [acked, sends, ih]

theorem ackedWrites_acked (bs : List Nat) (rest : List Ev) :
    ackedWrites (acked bs ++ rest) = bs.map (· % 256) ++ ackedWrites rest := by
  induction bs with
  | nil => rfl
  | cons b bs ih => simp [acked, ackedWrites, ih]

theorem ackedWrites_writeTx (bs : List Nat) (rest : List Ev) :
    ackedWrites (writeTx bs ++ rest) = bs.map (· % 256) ++ ackedWrites rest := by
  have h : writeTx bs ++ rest = Ev.start :: (acked bs ++ Ev.stop :: rest) := by
    simp [writeTx]
  rw [h]
  show ackedWrites (acked bs ++ Ev.stop :: rest) = _
  rw [ackedWrites_acked]
  rfl

theorem replicate_zero_mod (n : Nat) :
    (List.replicate n 0).map (· % 256) = List.replicate n 0 := by
  simp

theorem clearDataBytes_small : clearDataBytes.map (· % 256) = clearDataBytes := by
  unfold clearDataBytes
  rw [List.map_cons, List.map_cons, replicate_zero_mod]
  rfl

theorem initBytes_small : initBytes.map (· % 256) = initBytes := by decide

theorem clearWindowBytes_small : clearWindowBytes.map (· % 256) = clearWindowBytes := by
  decide

/-- Two complete write transactions in a row, for any two lists of bytes: if the result
is success, every acknowledge pulse was answered and the trace grew by the two
transactions. -/
theorem twoTx_success (w d : List Nat) (fin : State → State) (s : State)
    (h : (sendAll w (fun s => sendAll d (fun s => (1, fin (I2CDisconnect s)))
        (StartCondition (I2CDisconnect s))) (StartCondition s)).1 = 1) :
    sendAll w (fun s => sendAll d (fun s => (1, fin (I2CDisconnect s)))
        (StartCondition (I2CDisconnect s))) (StartCondition s) =
      (1, fin (I2CDisconnect (wrAll d (StartCondition (I2CDisconnect
        (wrAll w (StartCondition s))))))) ∧
    (I2CDisconnect (wrAll d (StartCondition (I2CDisconnect
        (wrAll w (StartCondition s)))))).trace = s.trace ++ (writeTx w ++ writeTx d) := by
  have h1 := sendAll_one _ _ _ h
  rw [sendAll_acked _ _ _ h1] at h ⊢
  have h2 := sendAll_one _ _ _ h
  rw [sendAll_acked _ _ _ h2]
  have t1 := wrAll_trace_acked w (StartCondition s) h1
  have t2 := wrAll_trace_acked d _ h2
  refine ⟨rfl, ?_⟩
  simp only [I2CDisconnect_trace, StartCondition_trace] at t1 t2 ⊢
  simp only [t2, t1, writeTx, List.append_assoc, List.cons_append,
      List.nil_append, List.singleton_append]

theorem twoTx_acked (w d : List Nat) (fin : State → State) (s : State)
    (hA : ∀ n, s.acks n = true) :
    (sendAll w (fun s => sendAll d (fun s => (1, fin (I2CDisconnect s)))
        (StartCondition (I2CDisconnect s))) (StartCondition s)).1 = 1 := by
  rw [sendAll_acked w _ (StartCondition s) (fun j _ => by simp [hA])]
  rw [sendAll_acked d _ _ (fun j _ => by simp [hA])]

/-- The state that a successful `clearScreen` leaves. -/
theorem clearScreen_success_state (s : State) (h : (clearScreen s).1 = 1) :
    clearScreen s =
      (1, homeCursor (I2CDisconnect (wrAll clearDataBytes (StartCondition (I2CDisconnect
        (wrAll clearWindowBytes (StartCondition s))))))) := by
  rw [clearScreen_eq] at h ⊢
  exact (twoTx_success clearWindowBytes clearDataBytes
    homeCursor s h).1

@[simp] theorem homeCursor_trace (t : State) :
    (homeCursor t).trace = t.trace := rfl
@[simp] theorem homeCursor_acks (t : State) :
    (homeCursor t).acks = t.acks := rfl
@[simp] theorem homeCursor_rx (t : State) :
    (homeCursor t).rx = t.rx := rfl
@[simp] theorem homeCursor_rxPos (t : State) :
    (homeCursor t).rxPos = t.rxPos := rfl
@[simp] theorem homeCursor_linepos (t : State) :
    (homeCursor t).linepos = 0 := rfl
@[simp] theorem homeCursor_linenum (t : State) :
    (homeCursor t).linenum = 0 := rfl

/-- What a successful `clearScreen` did, whatever the oracle: all the acknowledge pulses
it saw were answered, and the trace grew by its two complete transactions. -/
theorem clearScreen_success (s : State) (h : (clearScreen s).1 = 1) :
    (clearScreen s).2.trace =
        s.trace ++ (writeTx clearWindowBytes ++ writeTx clearDataBytes) ∧
      (clearScreen s).2.linepos = 0 ∧ (clearScreen s).2.linenum = 0 ∧
      (clearScreen s).2.acks = s.acks ∧ (clearScreen s).2.rx = s.rx ∧
      (clearScreen s).2.rxPos = s.rxPos := by
  have ht := (twoTx_success clearWindowBytes clearDataBytes
    homeCursor s (by rw [← clearScreen_eq]; exact h)).2
  rw [clearScreen_success_state s h]
  refine ⟨?_, ?_, ?_, ?_, ?_, ?_⟩
  · rw [Prod.snd, homeCursor_trace, ht]
  · rw [Prod.snd, homeCursor_linepos]
  · rw [Prod.snd, homeCursor_linenum]
  · rw [Prod.snd, homeCursor_acks, I2CDisconnect_acks_eq, wrAll_acks, StartCondition_acks_eq,
      I2CDisconnect_acks_eq, wrAll_acks, StartCondition_acks_eq]
  · rw [Prod.snd, homeCursor_rx, I2CDisconnect_rx_eq, wrAll_rx, StartCondition_rx_eq,
      I2CDisconnect_rx_eq, wrAll_rx, StartCondition_rx_eq]
  · rw [Prod.snd, homeCursor_rxPos, I2CDisconnect_rxPos, wrAll_rxPos, StartCondition_rxPos,
      I2CDisconnect_rxPos, wrAll_rxPos, StartCondition_rxPos]

theorem clearScreen_acked (s : State) (hA : ∀ n, s.acks n = true) :
    (clearScreen s).1 = 1 := by
  rw [clearScreen_eq]
  exact twoTx_acked _ _ _ s hA
/-! ## C9: the byte writes of a successful `clearScreen` -/

theorem clearScreen_ackedWrites :
    ackedWrites (writeTx clearWindowBytes ++ writeTx clearDataBytes) =
      [0x78, 0x00, 0x22, 0, 7, 0x21, 0, 127] ++ (0x78 :: 0x40 :: List.replicate 1024 0) := by
  have h := ackedWrites_writeTx clearDataBytes []
  rw [List.append_nil, clearDataBytes_small] at h
  rw [ackedWrites_writeTx, clearWindowBytes_small, h]
  simp only [clearWindowBytes, clearDataBytes, OLED_SCREEN, COMMAND_STREAM, DATA_STREAM,
    SET_PAGE_ADDRESSP, SET_COLUMN_ADDRESSP, ackedWrites, List.append_nil]

/-- C9, as amended. Whenever `clearScreen` returns success, its acknowledged byte writes
are exactly 1034 in number, in two complete transactions: the eight bytes of the window
transaction (address `0x78`, control byte `0x00`, then `0x22, 0, 7, 0x21, 0, 127`), then
the address `0x78` followed by exactly 1 + 1024 bytes: the control byte `0x40` and 1024
zero data bytes. -/
theorem clearScreen_writes (s : State) (h : (clearScreen s).1 = 1) :
    (clearScreen s).2.trace =
        s.trace ++ (writeTx clearWindowBytes ++ writeTx clearDataBytes) ∧
      ackedWrites (writeTx clearWindowBytes ++ writeTx clearDataBytes) =
        [0x78, 0x00, 0x22, 0, 7, 0x21, 0, 127] ++
          (0x78 :: 0x40 :: List.replicate 1024 0) ∧
      (ackedWrites (writeTx clearWindowBytes ++ writeTx clearDataBytes)).length =
        8 + 1 + (1 + 1024) := by
  refine ⟨(clearScreen_success s h).1, clearScreen_ackedWrites, ?_⟩
  rw [clearScreen_ackedWrites]
  simp only [List.length_append, List.length_cons, List.length_replicate, List.length_nil]

theorem clearScreen_writes_witness :
    (clearScreen goodBus).1 = 1 ∧
      (clearScreen goodBus).2.trace =
        goodBus.trace ++ (writeTx clearWindowBytes ++ writeTx clearDataBytes) ∧
      (ackedWrites (writeTx clearWindowBytes ++ writeTx clearDataBytes)).length =
        8 + 1 + (1 + 1024) :=
  ⟨clearScreen_acked goodBus (fun _ => rfl),
   (clearScreen_writes goodBus (clearScreen_acked goodBus (fun _ => rfl))).1,
   (clearScreen_writes goodBus (clearScreen_acked goodBus (fun _ => rfl))).2.2⟩

/-- C9 as stated fails: on a bus that acknowledges every byte `clearScreen` succeeds and
the acknowledged byte writes in its trace are 1034 in number, not 1 + 1024. -/
theorem clearScreen_writes_counterexample :
    (clearScreen goodBus).1 = 1 ∧
      (ackedWrites (clearScreen goodBus).2.trace).length = 1034 ∧
      (ackedWrites (clearScreen goodBus).2.trace).length ≠ 1 + 1024 := by
  have h := clearScreen_acked goodBus (fun _ => rfl)
  have e : goodBus.trace = [] := rfl
  have hl : (ackedWrites (clearScreen goodBus).2.trace).length = 1034 := by
    rw [(clearScreen_success goodBus h).1, e, List.nil_append, clearScreen_ackedWrites]
    simp only [List.length_append, List.length_cons, List.length_replicate, List.length_nil]
  exact ⟨h, hl, by rw [hl]; decide⟩

/-! ## C8: `initSSD1306` stops at the first byte that is not acknowledged -/

theorem wrAll_trace_nacked (bs : List Nat) (s : State) (k : Nat) (hk : k < bs.length)
    (h : ∀ j, j < k → s.acks (s.ackPos + j) = true)
    (hn : s.acks (s.ackPos + k) = false) :
    (wrAll (bs.take (k + 1)) s).trace =
      s.trace ++ (acked (bs.take k) ++ [Ev.send (bs.getD k 0 % 256), Ev.ack false]) := by
  have ht : bs.take (k + 1) = bs.take k ++ [bs.getD k 0] := by
    rw [List.take_succ, List.getD_eq_getElem?_getD, List.getElem?_eq_getElem hk]
    rfl
  have hl : (bs.take k).length = k := by
    rw [List.length_take]; omega
  rw [ht, wrAll_append, wrAll_cons, wrAll_nil, wr_trace, wrAll_trace_acked, wrAll_acks,
    wrAll_ackPos, hl, hn, List.append_assoc]
  intro j hj
  exact h j (by omega)

/-- C8. Number the bytes that `initSSD1306` writes from 1: the device address, the
control byte, then the 25 configuration bytes (`initBytes`). If byte `k + 1` is the first
one that is not acknowledged, then `initSSD1306` returns failure, what it did on the bus
is the start condition, the first `k` bytes, each acknowledged, and byte `k + 1` with its
missing acknowledge, and nothing more: the bytes written are exactly the first `k + 1`
bytes of the sequence. -/
theorem init_stops_at_first_nack (s : State) (k : Nat) (hk : k < 27)
    (hacked : ∀ j, j < k → s.acks (s.ackPos + j) = true)
    (hnack : s.acks (s.ackPos + k) = false) :
    (initSSD1306 s).1 = 0 ∧
      (initSSD1306 s).2.trace =
        s.trace ++ (Ev.start ::
          (acked (initBytes.take k) ++ [Ev.send (initBytes.getD k 0), Ev.ack false])) ∧
      sends (Ev.start ::
          (acked (initBytes.take k) ++ [Ev.send (initBytes.getD k 0), Ev.ack false])) =
        initBytes.take (k + 1) := by
  have hlen : initBytes.length = 27 := rfl
  have hsmall : initBytes.getD k 0 % 256 = initBytes.getD k 0 := by
    have : ∀ i, i < 27 → initBytes.getD i 0 % 256 = initBytes.getD i 0 := by decide
    exact this k hk
  have hfail := sendAll_nacked initBytes (fun s => (1, I2CDisconnect s)) (StartCondition s) k
    (by rw [hlen]; exact hk) hacked hnack
  have htr := wrAll_trace_nacked initBytes (StartCondition s) k (by rw [hlen]; exact hk)
    hacked hnack
  rw [initSSD1306_eq, hfail]
  refine ⟨rfl, ?_, ?_⟩
  · rw [Prod.snd, htr, StartCondition_trace, hsmall, List.append_assoc]
    rfl
  · have ht : initBytes.take (k + 1) = initBytes.take k ++ [initBytes.getD k 0] := by
      rw [List.take_succ, List.getD_eq_getElem?_getD,
        List.getElem?_eq_getElem (by rw [hlen]; exact hk)]
      rfl
    have hm : (initBytes.take k).map (· % 256) = initBytes.take k := by
      rw [List.map_take, initBytes_small]
    show sends (acked (initBytes.take k) ++ [Ev.send (initBytes.getD k 0), Ev.ack false]) = _
    rw [sends_append, sends_acked, hm, ht]
    rfl

theorem init_stops_at_first_nack_witness :
    (initSSD1306 deadBus).1 = 0 ∧
      (initSSD1306 deadBus).2.trace =
        deadBus.trace ++ (Ev.start ::
          (acked (initBytes.take 0) ++ [Ev.send (initBytes.getD 0 0), Ev.ack false])) ∧
      sends (Ev.start ::
          (acked (initBytes.take 0) ++ [Ev.send (initBytes.getD 0 0), Ev.ack false])) =
        initBytes.take (0 + 1) :=
  init_stops_at_first_nack deadBus 0 (by decide) (fun j hj => absurd hj (Nat.not_lt_zero j))
    rfl
/-! ## C7: `printSegment` goes on after a failed `translatePos` -/

/-- C7 fails on the code. On a bus that refuses only the very first byte (the address
byte of `translatePos`), `translatePos` returns failure, but `printSegment` discards that
result: it goes on to write the address, the control byte and the six glyph bytes, moves
the cursor and returns success. -/
theorem printSegment_continues_after_nack :
    (translatePos (glitchBus 0)).1 = 0 ∧
      (printSegment (demoGlyphs 65) (glitchBus 0)).1 = 1 ∧
      (printSegment (demoGlyphs 65) (glitchBus 0)).2.linepos = 1 ∧
      (printSegment (demoGlyphs 65) (glitchBus 0)).2.trace =
        [Ev.drawCall, Ev.start, Ev.send 0x78, Ev.ack false,
         Ev.start, Ev.send 0x78, Ev.ack true, Ev.send 0x40, Ev.ack true,
         Ev.send 65, Ev.ack true, Ev.send 66, Ev.ack true, Ev.send 67, Ev.ack true,
         Ev.send 68, Ev.ack true, Ev.send 69, Ev.ack true, Ev.send 70, Ev.ack true,
         Ev.stop] := by
  decide

/-! ## C6: the cursor can leave its bounds -/

theorem printSegment_acks (g : Glyph) (s : State) : (printSegment g s).2.acks = s.acks := by
  obtain ⟨-, -, -, -, ha, -, -⟩ :=
    ext_printSegment (P := fun _ => True) (fun _ _ => trivial) trivial g s
  exact ha

theorem drawMany_acks (n : Nat) (s : State) : (drawMany n s).acks = s.acks := by
  induction n generalizing s with
  | zero => rfl
  | succ n ih => rw [drawMany, ih, printSegment_acks]

set_option maxRecDepth 1000000 in
theorem drawMany_glitch_cursor :
    (drawMany 22 (glitchBus 336)).linepos = 22 ∧
      (drawMany 22 (glitchBus 336)).linenum = 0 ∧
      (drawMany 22 (glitchBus 336)).ackPos = 345 := by
  decide

/-- C6 fails on the code. From the initial cursor, 21 glyphs are drawn on a bus that
acknowledges every byte; in the 22nd call of `printSegment` the address byte of
`translatePos` is not acknowledged (acknowledge pulse number 336), so `translatePos`
returns before its wrap of the line position, and `printSegment` goes on and increments
it: `_g_linepos` is 22, the column `6 * 22 = 132` is out of `0..127`, and the next call
sends 132 as the start column of the address window. -/
theorem cursor_leaves_bounds :
    (drawMany 22 (glitchBus 336)).linepos = 22 ∧
      (drawMany 22 (glitchBus 336)).linenum = 0 ∧
      ¬ 6 * (drawMany 22 (glitchBus 336)).linepos ≤ 127 ∧
      (printSegment (demoGlyphs 65) (drawMany 22 (glitchBus 336))).2.trace =
        (drawMany 22 (glitchBus 336)).trace ++ drawEvents 0 132 (demoGlyphs 65) := by
  obtain ⟨hp, hn, hk⟩ := drawMany_glitch_cursor
  have hA : ∀ n, (drawMany 22 (glitchBus 336)).ackPos ≤ n →
      (drawMany 22 (glitchBus 336)).acks n = true := by
    intro n hle
    rw [drawMany_acks, hk] at *
    show (n != 336) = true
    simp only [bne_iff_ne, ne_eq]
    omega
  obtain ⟨-, ht, -⟩ := printSegment_acked (demoGlyphs 65) (drawMany 22 (glitchBus 336)) hA
  rw [nextLine_linenum, nextLine_linepos, hp, hn] at ht
  refine ⟨hp, hn, by rw [hp]; decide, ?_⟩
  rw [ht]
  rfl
/-! ## Rendering a page on a bus that acknowledges every byte -/

theorem printChar_eq (G : Nat → Glyph) (c : Nat) (s : State) :
    printChar G c s =
      if c ∈ printCharCases then
        (if (printSegment (G c) s).1 = 0 then (0, (printSegment (G c) s).2)
         else (1, (printSegment (G c) s).2))
      else (1, s) := rfl

/-- The state after the read transaction of one pass of the read loop. -/
theorem readLoop_succ (G : Nat → Glyph) (a n : Nat) (K : State → Nat × State) (s : State)
    (h0 : s.acks s.ackPos = true) :
    readLoop G a (n + 1) K s =
      callChecked (printChar G (s.rx s.rxPos % 256)) (readLoop G a n K)
        (I2CDisconnect (Acknowledge
          (USIReceive USI_TIMER_MASK_8BIT (wr a (StartCondition s))).2).2) := by
  rw [readLoop, callChecked_connect]
  simp only []
  rw [sendByte_ack _ _ _ (by simpa using h0)]
  rfl

theorem readPulses_gt (cs : List Nat) : ∀ (p m : Nat), m ∈ readPulses p cs → p < m := by
  induction cs with
  | nil => intro p m h; simp [readPulses] at h
  | cons c cs ih =>
    intro p m h
    rw [readPulses, List.mem_cons] at h
    rcases h with h | h
    · omega
    · have := ih _ _ h
      omega

/-- The read-and-draw loop when every byte that it writes is acknowledged; the pulses
that follow the bytes read are left to the oracle. -/
theorem readLoop_acked (G : Nat → Glyph) (a n : Nat) :
    ∀ (k : Nat) (s : State) (K : State → Nat × State),
      (∀ m, s.ackPos ≤ m → m ∉ readPulses s.ackPos (memBytes s.rx s.rxPos n) →
        s.acks m = true) →
      k + n < 168 →
      (nextLine s).linenum = k / 21 → (nextLine s).linepos = k % 21 →
      ∃ s1, readLoop G a n K s = K s1 ∧
        s1.trace = s.trace ++
          renderEvents G a s.acks s.ackPos k (memBytes s.rx s.rxPos n) := by
  induction n with
  | zero =>
    intro k s K _ _ _ _
    exact ⟨s, rfl, by simp [memBytes, renderEvents]⟩
  | succ n ih =>
    intro k s K hA hk hrow hcol
    have hm : memBytes s.rx s.rxPos (n + 1) =
        s.rx s.rxPos % 256 :: memBytes s.rx (s.rxPos + 1) n := rfl
    rw [hm] at hA ⊢
    have hgt := readPulses_gt (memBytes s.rx (s.rxPos + 1) n)
    have h0 : s.acks s.ackPos = true := by
      refine hA _ (Nat.le_refl _) ?_
      rw [readPulses, List.mem_cons]
      rintro (h | h)
      · omega
      · have := hgt _ _ h
        omega
    rw [readLoop_succ G a n K s h0, callChecked_eq, printChar_eq]
    generalize ht : (I2CDisconnect (Acknowledge
          (USIReceive USI_TIMER_MASK_8BIT (wr a (StartCondition s))).2).2) = t
    have tt : t.trace = s.trace ++ readTx a (s.rx s.rxPos % 256) (s.acks (s.ackPos + 1)) := by
      rw [← ht]; simp [readTx, h0]
    have ta : t.acks = s.acks := by rw [← ht]; simp
    have tr : t.rx = s.rx := by rw [← ht]; simp
    have tx : t.rxPos = s.rxPos + 1 := by rw [← ht]; simp
    have tk : t.ackPos = s.ackPos + 2 := by rw [← ht]; simp
    have tp : t.linepos = s.linepos := by rw [← ht]; simp
    have tn : t.linenum = s.linenum := by rw [← ht]; simp
    have tc := nextLine_congr s t tp tn
    by_cases hc : s.rx s.rxPos % 256 ∈ printCharCases
    · rw [readPulses, if_pos hc] at hA
      have hB : ∀ j, j < 16 → t.acks (t.ackPos + j) = true := by
        intro j hj
        rw [ta, tk]
        refine hA _ (by omega) ?_
        rw [List.mem_cons]
        rintro (h | h)
        · omega
        · have := hgt _ _ h
          omega
      obtain ⟨p1, pt, pp, pn, pa, pr, px, pk⟩ :=
        printSegment_acked_upto (G (s.rx s.rxPos % 256)) t hB
      rw [if_pos hc, p1]
      simp only [if_neg (by decide : ¬ (1 : Nat) = 0)]
      generalize (printSegment (G (s.rx s.rxPos % 256)) t).2 = u at *
      rw [tc.1, tc.2, hrow, hcol] at pt
      rw [tc.1, hcol] at pp
      rw [tc.2, hrow] at pn
      have uk : u.ackPos = s.ackPos + 18 := by rw [pk, tk]
      have ua : u.acks = s.acks := by rw [pa, ta]
      have ur : u.rx = s.rx := by rw [pr, tr]
      have ux : u.rxPos = s.rxPos + 1 := by rw [px, tx]
      have hAu : ∀ m, u.ackPos ≤ m → m ∉ readPulses u.ackPos (memBytes u.rx u.rxPos n) →
          u.acks m = true := by
        intro m hm hn
        rw [uk, ur, ux] at hn
        rw [uk] at hm
        rw [ua]
        refine hA m (by omega) ?_
        rw [List.mem_cons]
        rintro (h | h)
        · omega
        · exact hn h
      have hlt : k % 21 < 21 := Nat.mod_lt _ (by decide)
      have ulp : u.linepos = k % 21 + 1 := by rw [pp]; omega
      obtain ⟨s1, hs1, hs1t⟩ := ih (k + 1) u K hAu (by omega)
        (by rw [nextLine_linenum, ulp, pn]; split_ifs <;> omega)
        (by rw [nextLine_linepos, ulp]; split_ifs <;> omega)
      refine ⟨s1, hs1, ?_⟩
      rw [hs1t, pt, tt, ua, uk, ur, ux]
      simp [renderEvents, hc]
    · rw [readPulses, if_neg hc] at hA
      rw [if_neg hc]
      simp only []
      have hAt : ∀ m, t.ackPos ≤ m → m ∉ readPulses t.ackPos (memBytes t.rx t.rxPos n) →
          t.acks m = true := by
        intro m hm hn
        rw [tk, tr, tx] at hn
        rw [tk] at hm
        rw [ta]
        refine hA m (by omega) ?_
        rw [List.mem_cons]
        rintro (h | h)
        · omega
        · exact hn h
      obtain ⟨s1, hs1, hs1t⟩ := ih k t K hAt (by omega)
        (by rw [tc.2]; exact hrow) (by rw [tc.1]; exact hcol)
      refine ⟨s1, hs1, ?_⟩
      rw [hs1t, tt, ta, tk, tr, tx]
      simp [renderEvents, hc]

theorem readDisplayPage_eq (G : Nat → Glyph) (sub : Nat) (s : State) (h : sub < 16) :
    readDisplayPage G sub s =
      sendByte (writeAddress sub)
        (sendByte (sub <<< 7) (fun s =>
          readLoop G (readAddress sub) 128 (fun s => (1, s)) (I2CDisconnect s)))
        (StartCondition { s with trace := s.trace ++ [Ev.renderCall sub] }) := by
  have h2 : sub < MAX_SUBPAGES := h
  unfold readDisplayPage
  simp only [if_pos h2]
  rw [callChecked_connect]
  rfl

/-- Two complete write transactions in a row succeed when the bytes of both are
acknowledged. -/
theorem twoTx_acked_upto (w d : List Nat) (fin : State → State) (s : State)
    (hA : ∀ j, j < w.length + d.length → s.acks (s.ackPos + j) = true) :
    (sendAll w (fun s => sendAll d (fun s => (1, fin (I2CDisconnect s)))
        (StartCondition (I2CDisconnect s))) (StartCondition s)).1 = 1 := by
  rw [sendAll_acked w _ (StartCondition s) (fun j hj => hA j (by omega))]
  rw [sendAll_acked d _ _ (fun j hj => by
    have := hA (w.length + j) (by omega)
    simpa [Nat.add_assoc] using this)]

theorem clearDataBytes_length : clearDataBytes.length = 1026 := by
  unfold clearDataBytes
  rw [List.length_cons, List.length_cons, List.length_replicate]

theorem clearScreen_acked_upto (s : State)
    (hA : ∀ j, j < 1034 → s.acks (s.ackPos + j) = true) : (clearScreen s).1 = 1 := by
  rw [clearScreen_eq]
  refine twoTx_acked_upto _ _ _ s ?_
  intro j hj
  rw [clearDataBytes_length] at hj
  exact hA j (by have : clearWindowBytes.length = 8 := rfl; omega)

theorem homeCursor_ackPos (t : State) : (homeCursor t).ackPos = t.ackPos := rfl

theorem clearScreen_success_ackPos (s : State) (h : (clearScreen s).1 = 1) :
    (clearScreen s).2.ackPos = s.ackPos + 1034 := by
  have hw : clearWindowBytes.length = 8 := rfl
  rw [clearScreen_success_state s h]
  rw [Prod.snd, homeCursor_ackPos, I2CDisconnect_ackPos, wrAll_ackPos, StartCondition_ackPos,
    I2CDisconnect_ackPos, wrAll_ackPos, StartCondition_ackPos, clearDataBytes_length, hw]

/-! ## C5: a page is drawn left to right from the top left corner -/

/-- C5. On a bus that acknowledges every byte written to it (the acknowledge pulses
that follow a byte read, listed by `readPulses`, are left free: there the master has
released the data line), `clearScreen` succeeds, and the `readDisplayPage` that follows
it, for any subpage in `0..15` and any memory content, succeeds and adds to the trace:
its address-set transaction, then for each of the 128 bytes one read transaction
followed, when the byte has a glyph, by the drawing of that glyph (its window
transaction and its six bytes in order). By `renderEvents`, the glyph number `k` (from
0, over the bytes that have a glyph) is addressed at the page `k / 21` and the start
column `6 * (k mod 21)`; so glyph number 21, the 22nd, is the first of row 1. -/
theorem page_drawn_left_to_right (G : Nat → Glyph) (sub : Nat) (s : State)
    (hsub : sub < 16)
    (hA : ∀ n, s.ackPos ≤ n →
      n ∉ readPulses (s.ackPos + 1036) (memBytes s.rx s.rxPos 128) → s.acks n = true) :
    (clearScreen s).1 = 1 ∧
      (readDisplayPage G sub (clearScreen s).2).1 = 1 ∧
      (readDisplayPage G sub (clearScreen s).2).2.trace =
        (clearScreen s).2.trace ++
          Ev.renderCall sub ::
            (writeTx [writeAddress sub, sub <<< 7] ++
              renderEvents G (readAddress sub) s.acks (s.ackPos + 1036) 0
                (memBytes s.rx s.rxPos 128)) := by
  have hgt := readPulses_gt (memBytes s.rx s.rxPos 128) (s.ackPos + 1036)
  have hlow : ∀ j, j < 1036 → s.acks (s.ackPos + j) = true := by
    intro j hj
    refine hA _ (Nat.le_add_right _ _) ?_
    intro h
    have := hgt _ h
    omega
  have hc := clearScreen_acked_upto s (fun j hj => hlow j (by omega))
  have ck := clearScreen_success_ackPos s hc
  obtain ⟨-, cp, cn, ca, cr, cx⟩ := clearScreen_success s hc
  refine ⟨hc, ?_⟩
  generalize (clearScreen s).2 = c at *
  have h0 : c.acks c.ackPos = true := by rw [ca, ck]; exact hlow 1034 (by decide)
  have h1 : c.acks (c.ackPos + 1) = true := by
    rw [ca, ck, Nat.add_assoc]; exact hlow 1035 (by decide)
  rw [readDisplayPage_eq G sub c hsub]
  rw [sendByte_ack _ _ _ (by simpa using h0)]
  rw [sendByte_ack _ _ _ (by simpa using h1)]
  generalize hd : (I2CDisconnect (wr (sub <<< 7) (wr (writeAddress sub)
      (StartCondition { c with trace := c.trace ++ [Ev.renderCall sub] })))) = d
  have dk : d.ackPos = s.ackPos + 1036 := by rw [← hd]; simp [ck, Nat.add_assoc]
  have da : d.acks = s.acks := by rw [← hd]; simp [ca]
  have dr : d.rx = s.rx := by rw [← hd]; simp [cr]
  have dx : d.rxPos = s.rxPos := by rw [← hd]; simp [cx]
  have dp : d.linepos = 0 := by rw [← hd]; simp [cp]
  have dn : d.linenum = 0 := by rw [← hd]; simp [cn]
  have dt : d.trace = c.trace ++
      Ev.renderCall sub :: writeTx [writeAddress sub, sub <<< 7] := by
    rw [← hd]; simp [writeTx, acked, h0, h1]
  obtain ⟨s1, h1l, h1t⟩ := readLoop_acked G (readAddress sub) 128 0 d (fun s => (1, s))
    (by
      intro m hm hn
      rw [dk, dr, dx] at hn
      rw [dk] at hm
      rw [da]
      exact hA m (by omega) hn)
    (by decide)
    (by rw [nextLine_linenum]; simp [dp, dn]) (by rw [nextLine_linepos]; simp [dp, dn])
  rw [h1l]
  refine ⟨rfl, ?_⟩
  rw [h1t, dt, da, dk, dr, dx]
  simp

theorem memBytes_length (rx : Nat → Nat) (pos n : Nat) : (memBytes rx pos n).length = n := by
  induction n generalizing pos with
  | zero => rfl
  | succ n ih => simp [memBytes, ih]

theorem readPulses_glyphs (cs : List Nat) (h : ∀ c ∈ cs, c ∈ printCharCases) :
    ∀ (p i : Nat), i < cs.length → p + 1 + 18 * i ∈ readPulses p cs := by
  induction cs with
  | nil => intro p i hi; simp at hi
  | cons c cs ih =>
    intro p i hi
    rw [readPulses, if_pos (h c (List.mem_cons_self _ _)), List.mem_cons]
    cases i with
    | zero => exact Or.inl rfl
    | succ i =>
      right
      have := ih (fun x hx => h x (List.mem_cons_of_mem _ hx)) (p + 2 + 16) i
        (by simpa using hi)
      have e : p + 1 + 18 * (i + 1) = p + 2 + 16 + 1 + 18 * i := by omega
      rw [e]
      exact this

theorem memBytes_const (c : Nat) (n : Nat) :
    ∀ pos, ∀ x ∈ memBytes (fun _ => c) pos n, x = c % 256 := by
  induction n with
  | zero => intro pos x hx; simp [memBytes] at hx
  | succ n ih =>
    intro pos x hx
    rw [memBytes, List.mem_cons] at hx
    rcases hx with h | h
    · exact h
    · exact ih _ x h

/-- On `readNackBus` every acknowledge pulse that does not follow a byte read is low. -/
theorem readNackBus_writes_acked (n : Nat)
    (hn : n ∉ readPulses 1036 (memBytes (fun _ => 65) 0 128)) :
    readNackBus.acks n = true := by
  show (!(decide (1037 ≤ n) && decide (n < 3341) && (n - 1037) % 18 == 0)) = true
  by_contra hf
  simp only [Bool.not_eq_true, Bool.not_eq_false', Bool.and_eq_true, decide_eq_true_eq,
    beq_iff_eq] at hf
  obtain ⟨⟨h1, h2⟩, h3⟩ := hf
  apply hn
  have hm := readPulses_glyphs (memBytes (fun _ => 65) 0 128)
    (fun c hc => by rw [memBytes_const 65 128 0 c hc]; decide) 1036 ((n - 1037) / 18)
    (by rw [memBytes_length]; omega)
  have e : 1036 + 1 + 18 * ((n - 1037) / 18) = n := by omega
  rw [e] at hm
  exact hm

theorem page_drawn_left_to_right_witness :
    readNackBus.acks 1037 = false ∧ readNackBus.acks 1055 = false ∧
      (clearScreen readNackBus).1 = 1 ∧
      (readDisplayPage demoGlyphs 0 (clearScreen readNackBus).2).1 = 1 ∧
      (readDisplayPage demoGlyphs 0 (clearScreen readNackBus).2).2.trace =
        (clearScreen readNackBus).2.trace ++
          Ev.renderCall 0 ::
            (writeTx [writeAddress 0, 0 <<< 7] ++
              renderEvents demoGlyphs (readAddress 0) readNackBus.acks
                (readNackBus.ackPos + 1036) 0
                (memBytes readNackBus.rx readNackBus.rxPos 128)) :=
  ⟨by decide, by decide,
   page_drawn_left_to_right demoGlyphs 0 readNackBus (by decide)
     (fun n _ hn => readNackBus_writes_acked n hn)⟩
/-! ## Rendering a page, whatever the bus answers -/

theorem drawCalls_append (xs ys : List Ev) :
    drawCalls (xs ++ ys) = drawCalls xs + drawCalls ys := by
  induction xs with
  | nil => simp [drawCalls]
  | cons e es ih =>
    cases e <;> simp [drawCalls, ih]
    omega

theorem drawCalls_eq_zero (evs : List Ev) (h : ∀ e ∈ evs, busWrite e = true) :
    drawCalls evs = 0 := by
  induction evs with
  | nil => rfl
  | cons e es ih =>
    have he := h e (List.mem_cons_self _ _)
    have ih2 := ih (fun x hx => h x (List.mem_cons_of_mem _ hx))
    cases e <;> simp_all [drawCalls, busWrite]

theorem printSegment_ext (g : Glyph) (s : State) :
    Ext (fun e => busWrite e = true) { s with trace := s.trace ++ [Ev.drawCall] }
      (printSegment g s) := by
  have hW : ∀ e, busWrite e = true → busWrite e = true := fun _ h => h
  unfold printSegment
  refine ext_trans _ (ext_translatePos hW _) ?_
  refine ext_connect hW _ _ _ fun s => ext_control hW _ _ _ fun s => ?_
  iterate 6 refine ext_sendByte hW _ _ _ fun s => ?_
  exact ext_stop hW 1 _

/-- What `printChar` adds to the trace, whatever the bus answers: no byte is read and
`printSegment` is called at most once. -/
theorem printChar_events (G : Nat → Glyph) (c : Nat) (s : State) :
    ∃ e, (printChar G c s).2.trace = s.trace ++ e ∧ recvs e = [] ∧ drawCalls e ≤ 1 ∧
      (printChar G c s).2.rx = s.rx ∧ (printChar G c s).2.rxPos = s.rxPos := by
  rw [printChar_eq]
  by_cases hc : c ∈ printCharCases
  · obtain ⟨e, ht, hp, -, -, hr, hx⟩ := printSegment_ext (G c) s
    have hre := recvs_eq_nil e hp
    rw [hre] at hx
    simp only [] at ht hr hx
    rw [if_pos hc]
    refine ⟨Ev.drawCall :: e, ?_, ?_, ?_, ?_, ?_⟩
    · split_ifs <;> simp [ht]
    · simpa [recvs] using hre
    · simp [drawCalls, drawCalls_eq_zero e hp]
    · split_ifs <;> exact hr
    · split_ifs <;> simpa using hx
  · rw [if_neg hc]
    exact ⟨[], by simp, rfl, by simp [drawCalls], rfl, rfl⟩

theorem readLoop_events (G : Nat → Glyph) (a n : Nat) :
    ∀ s : State, ∃ (parts : List (Bool × List Ev)) (tail : List Ev),
      (readLoop G a n (fun s => (1, s)) s).2.trace =
          s.trace ++ (loopEvents a s.rx s.rxPos parts ++ tail) ∧
        parts.length ≤ n ∧
        (∀ p ∈ parts, recvs p.2 = [] ∧ drawCalls p.2 ≤ 1) ∧
        recvs tail = [] ∧ drawCalls tail = 0 ∧
        ((readLoop G a n (fun s => (1, s)) s).1 = 1 → parts.length = n ∧ tail = []) := by
  induction n with
  | zero =>
    intro s
    exact ⟨[], [], by simp [readLoop, loopEvents], by simp, by simp, rfl, rfl,
      fun _ => ⟨rfl, rfl⟩⟩
  | succ n ih =>
    intro s
    by_cases h0 : s.acks s.ackPos = true
    · rw [readLoop_succ G a n _ s h0, callChecked_eq]
      generalize ht : (I2CDisconnect (Acknowledge
          (USIReceive USI_TIMER_MASK_8BIT (wr a (StartCondition s))).2).2) = t
      have tt : t.trace = s.trace ++ readTx a (s.rx s.rxPos % 256) (s.acks (s.ackPos + 1)) := by
        rw [← ht]; simp [readTx, h0]
      have tr : t.rx = s.rx := by rw [← ht]; simp
      have tx : t.rxPos = s.rxPos + 1 := by rw [← ht]; simp
      obtain ⟨e, pt, pr, pd, prx, pxp⟩ := printChar_events G (s.rx s.rxPos % 256) t
      by_cases hz : (printChar G (s.rx s.rxPos % 256) t).1 = 0
      · rw [if_pos hz]
        refine ⟨[(s.acks (s.ackPos + 1), e)], [], ?_, by simp, ?_, rfl, rfl, ?_⟩
        · simp only []
          rw [pt, tt]
          simp [loopEvents]
        · intro p hp
          rw [List.mem_singleton] at hp
          subst hp
          exact ⟨pr, pd⟩
        · intro h; simp at h
      · rw [if_neg hz]
        obtain ⟨parts, tail, lt, ll, lc, lr, ld, ls⟩ :=
          ih (printChar G (s.rx s.rxPos % 256) t).2
        refine ⟨(s.acks (s.ackPos + 1), e) :: parts, tail, ?_, by simp; omega, ?_, lr, ld, ?_⟩
        · rw [lt, pt, tt, prx, pxp, tr, tx]
          simp [loopEvents]
        · intro p hp
          rcases List.mem_cons.1 hp with h | h
          · subst h; exact ⟨pr, pd⟩
          · exact lc p h
        · intro h
          obtain ⟨h1, h2⟩ := ls h
          exact ⟨by simp [h1], h2⟩
    · rw [readLoop, callChecked_connect]
      simp only []
      rw [sendByte_nack _ _ _ (by simpa using h0)]
      refine ⟨[], [Ev.start, Ev.send (a % 256), Ev.ack false], ?_, by simp, by simp, rfl, rfl,
        ?_⟩
      · have hf : s.acks s.ackPos = false := by simpa using h0
        simp [loopEvents, hf]
      · intro h; simp at h

theorem recvs_loopEvents (a : Nat) (rx : Nat → Nat) (pos : Nat)
    (parts : List (Bool × List Ev)) (h : ∀ p ∈ parts, recvs p.2 = [] ∧ drawCalls p.2 ≤ 1) :
    recvs (loopEvents a rx pos parts) = memBytes rx pos parts.length ∧
      drawCalls (loopEvents a rx pos parts) ≤ parts.length := by
  induction parts generalizing pos with
  | nil => exact ⟨rfl, Nat.le_refl _⟩
  | cons p ps ih =>
    obtain ⟨h1, h2⟩ := ih (pos + 1) (fun q hq => h q (List.mem_cons_of_mem _ hq))
    obtain ⟨hp1, hp2⟩ := h p (List.mem_cons_self _ _)
    refine ⟨?_, ?_⟩
    · simp [loopEvents, recvs_append, hp1, h1, memBytes, readTx, recvs]
    · simp only [loopEvents, drawCalls_append, List.length_cons]
      have : drawCalls (readTx a (rx pos % 256) p.1) = 0 := rfl
      omega

/-! ## C10: a page is 128 bytes read and at most 128 glyphs drawn -/

/-- C10. For every subpage in `0..15`, every memory content and every pattern of
acknowledge outcomes, what `readDisplayPage` adds to the trace holds at most 128 bytes
read and at most 128 calls of `printSegment`. When `readDisplayPage` returns success, it
read exactly the next 128 bytes of the memory, in order, each by its own single-byte read
transaction: after the address-set transaction the trace is made of 128 passes, each one
the read transaction of the next byte followed by events of `printChar` in which nothing
is read. -/
theorem page_is_128_bytes (G : Nat → Glyph) (sub : Nat) (s : State) (hsub : sub < 16) :
    ∃ evs, (readDisplayPage G sub s).2.trace = s.trace ++ evs ∧
      (recvs evs).length ≤ 128 ∧ drawCalls evs ≤ 128 ∧
      ((readDisplayPage G sub s).1 = 1 →
        recvs evs = memBytes s.rx s.rxPos 128 ∧ (recvs evs).length = 128 ∧
        ∃ parts : List (Bool × List Ev),
          parts.length = 128 ∧ (∀ p ∈ parts, recvs p.2 = []) ∧
          evs = Ev.renderCall sub ::
            (writeTx [writeAddress sub, sub <<< 7] ++
              loopEvents (readAddress sub) s.rx s.rxPos parts)) := by
  rw [readDisplayPage_eq G sub s hsub]
  generalize hs0 : StartCondition { s with trace := s.trace ++ [Ev.renderCall sub] } = s0
  have t0 : s0.trace = s.trace ++ [Ev.renderCall sub, Ev.start] := by rw [← hs0]; simp
  have r0 : s0.rx = s.rx := by rw [← hs0]; rfl
  have x0 : s0.rxPos = s.rxPos := by rw [← hs0]; rfl
  rw [sendByte_eq]
  by_cases h0 : s0.acks s0.ackPos = true
  · rw [if_pos h0, sendByte_eq]
    by_cases h1 : (wr (writeAddress sub) s0).acks (wr (writeAddress sub) s0).ackPos = true
    · rw [if_pos h1]
      obtain ⟨parts, tail, lt, ll, lc, lr, ld, ls⟩ := readLoop_events G (readAddress sub) 128
        (I2CDisconnect (wr (sub <<< 7) (wr (writeAddress sub) s0)))
      obtain ⟨hrecv, hdraw⟩ := recvs_loopEvents (readAddress sub) s.rx s.rxPos parts lc
      have hpre : recvs (Ev.renderCall sub :: writeTx [writeAddress sub, sub <<< 7]) = [] ∧
          drawCalls (Ev.renderCall sub :: writeTx [writeAddress sub, sub <<< 7]) = 0 :=
        ⟨rfl, rfl⟩
      refine ⟨Ev.renderCall sub :: (writeTx [writeAddress sub, sub <<< 7] ++
        (loopEvents (readAddress sub) s.rx s.rxPos parts ++ tail)), ?_, ?_, ?_, ?_⟩
      · rw [lt]
        simp only [wr_acks, wr_ackPos] at h1
        simp [t0, r0, x0, h0, h1, writeTx, acked]
      · rw [← List.cons_append, recvs_append, recvs_append, hpre.1, lr, hrecv, List.nil_append,
          List.append_nil, memBytes_length]
        exact ll
      · rw [← List.cons_append, drawCalls_append, drawCalls_append, hpre.2, ld]
        omega
      · intro hres
        obtain ⟨hl, htl⟩ := ls hres
        subst htl
        rw [List.append_nil]
        refine ⟨?_, ?_, parts, hl, fun p hp => (lc p hp).1, rfl⟩
        · rw [← List.cons_append, recvs_append, hpre.1, hrecv, List.nil_append, hl]
        · rw [← List.cons_append, recvs_append, hpre.1, hrecv, List.nil_append,
            memBytes_length, hl]
    · rw [if_neg h1]
      refine ⟨[Ev.renderCall sub, Ev.start, Ev.send (writeAddress sub % 256), Ev.ack true,
        Ev.send (sub <<< 7 % 256), Ev.ack false], ?_, by simp [recvs], by simp [drawCalls], ?_⟩
      · simp only [wr_acks, wr_ackPos, Bool.not_eq_true] at h1
        simp [t0, h0, h1]
      · intro h; simp at h
  · rw [if_neg h0]
    refine ⟨[Ev.renderCall sub, Ev.start, Ev.send (writeAddress sub % 256), Ev.ack false], ?_,
      by simp [recvs], by simp [drawCalls], ?_⟩
    · simp only [Bool.not_eq_true] at h0
      simp [t0, h0]
    · intro h; simp at h

theorem page_is_128_bytes_witness :
    ∃ evs, (readDisplayPage demoGlyphs 3 goodBus).2.trace = goodBus.trace ++ evs ∧
      (recvs evs).length ≤ 128 ∧ drawCalls evs ≤ 128 ∧
      ((readDisplayPage demoGlyphs 3 goodBus).1 = 1 →
        recvs evs = memBytes goodBus.rx goodBus.rxPos 128 ∧ (recvs evs).length = 128 ∧
        ∃ parts : List (Bool × List Ev),
          parts.length = 128 ∧ (∀ p ∈ parts, recvs p.2 = []) ∧
          evs = Ev.renderCall 3 ::
            (writeTx [writeAddress 3, 3 <<< 7] ++
              loopEvents (readAddress 3) goodBus.rx goodBus.rxPos parts)) :=
  page_is_128_bytes demoGlyphs 3 goodBus (by decide)
/-! ## C11: a code without a glyph draws nothing -/

theorem mem_printCharCases (c : Nat) : c ∈ printCharCases ↔ 0x20 ≤ c ∧ c ≤ 0x7E := by
  constructor
  · intro h
    simp only [printCharCases, List.mem_cons, List.mem_singleton, List.not_mem_nil,
      or_false] at h
    omega
  · rintro ⟨h1, h2⟩
    interval_cases c <;> decide

/-- C11. A byte value outside `0x20..0x7E` has no `case` in `printChar` (and every value
inside has one); for such a value `printChar` returns success and leaves the whole state
as it was: nothing is added to the trace of the bus and `_g_linepos` and `_g_linenum`
keep their values. -/
theorem unknown_code_skipped (G : Nat → Glyph) (c : Nat) (s : State)
    (hc : c < 0x20 ∨ 0x7E < c) :
    c ∉ printCharCases ∧ printChar G c s = (1, s) ∧
      (printChar G c s).1 = 1 ∧ (printChar G c s).2.trace = s.trace ∧
      (printChar G c s).2.linepos = s.linepos ∧ (printChar G c s).2.linenum = s.linenum := by
  have hn : c ∉ printCharCases := by
    rw [mem_printCharCases]; omega
  have h : printChar G c s = (1, s) := by
    rw [printChar_eq, if_neg hn]
  exact ⟨hn, h, by rw [h], by rw [h], by rw [h], by rw [h]⟩

theorem unknown_code_skipped_witness :
    printChar demoGlyphs 0x7F goodBus = (1, goodBus) :=
  (unknown_code_skipped demoGlyphs 0x7F goodBus (Or.inr (by decide))).2.1

/-! ## C18: a run of the handler with both inputs high does nothing -/

/-- C18. A run of the handler in which `PB3` reads high at the first test and `PB4` reads
high at the second leaves the whole state as it was: nothing is added to the trace of
the bus, and `_g_currentsubPage`, `_g_linepos` and `_g_linenum` keep their values. -/
theorem idle_run_is_noop (G : Nat → Glyph) (p1 p2 : Nat) (s : State)
    (h3 : p1 &&& (1 <<< PB3) ≠ 0) (h4 : p2 &&& (1 <<< PB4) ≠ 0) :
    ISR G p1 p2 s = s ∧ (ISR G p1 p2 s).trace = s.trace ∧
      (ISR G p1 p2 s).currentsubPage = s.currentsubPage ∧
      (ISR G p1 p2 s).linepos = s.linepos ∧ (ISR G p1 p2 s).linenum = s.linenum := by
  have h : ISR G p1 p2 s = s := by
    rw [ISR_unfold, if_neg h4, if_neg h3]
  exact ⟨h, by rw [h], by rw [h], by rw [h], by rw [h]⟩

theorem idle_run_is_noop_witness :
    ISR demoGlyphs 0xFF 0xFF goodBus = goodBus :=
  (idle_run_is_noop demoGlyphs 0xFF 0xFF goodBus (by decide) (by decide)).1

/-! ## C15: the configuration sequence of `initSSD1306` -/

/-- C15. When every byte is acknowledged, `initSSD1306` returns success and what it does
on the bus is one transaction: a start condition, the 27 bytes of `initBytes` in order,
each acknowledged, and one stop condition. The bytes are the display address `0x78`, the
control byte `0x00`, then `0xAE; 0xA8,0x3F; 0xD3,0x00; 0x40; 0xA1; 0xC8; 0xDA,0xD2;
0x81,0x7F; 0xA4; 0xA6; 0xD5,0x80; 0x8D,0x14; 0xDB,0x20; 0x20,0x00; 0xD9,0x22; 0xAF`. -/
theorem init_sequence (s : State) (hA : ∀ n, s.acks n = true) :
    (initSSD1306 s).1 = 1 ∧
      (initSSD1306 s).2.trace = s.trace ++ writeTx initBytes ∧
      sends (writeTx initBytes) =
        [0x78, 0x00, 0xAE, 0xA8, 0x3F, 0xD3, 0x00, 0x40, 0xA1, 0xC8, 0xDA, 0xD2, 0x81, 0x7F,
         0xA4, 0xA6, 0xD5, 0x80, 0x8D, 0x14, 0xDB, 0x20, 0x20, 0x00, 0xD9, 0x22, 0xAF] ∧
      (writeTx initBytes).count Ev.start = 1 ∧ (writeTx initBytes).count Ev.stop = 1 := by
  have h := sendAll_acked initBytes (fun t => (1, I2CDisconnect t)) (StartCondition s)
    (fun j _ => by simp [hA])
  have ht := wrAll_trace_acked initBytes (StartCondition s) (fun j _ => by simp [hA])
  rw [initSSD1306_eq, h]
  refine ⟨rfl, ?_, by decide, by decide, by decide⟩
  rw [Prod.snd, I2CDisconnect_trace, ht, StartCondition_trace]
  simp [writeTx]

theorem init_sequence_witness :
    (initSSD1306 goodBus).1 = 1 ∧
      (initSSD1306 goodBus).2.trace = goodBus.trace ++ writeTx initBytes :=
  ⟨(init_sequence goodBus (fun _ => rfl)).1, (init_sequence goodBus (fun _ => rfl)).2.1⟩

/-! ## C16: the address window set by `translatePos` -/

/-- C16. On a bus that acknowledges every byte, from a cursor with row `r` in `0..7` and
line position `p` in `0..21`, `translatePos` returns success and what it does on the bus
is one transaction: start, the bytes `0x78, 0x00, 0x22, r', 7, 0x21, 6 * p', 127`, each
acknowledged, stop, where `(r', p')` is `(r, p)` when `p < 21` and `((r + 1) mod 8, 0)`
when `p = 21`: the page window is `[r', 7]` and the column window `[6 * p', 127]` with
`6 * p' ≤ 120`. -/
theorem window_set_by_translatePos (s : State) (hn : s.linenum ≤ 7) (hp : s.linepos ≤ 21)
    (hA : ∀ n, s.acks n = true) :
    (translatePos s).1 = 1 ∧
      (translatePos s).2.trace =
        s.trace ++ writeTx [0x78, 0x00, 0x22,
          (if s.linepos = 21 then (s.linenum + 1) % 8 else s.linenum), 7,
          0x21, 6 * (if s.linepos = 21 then 0 else s.linepos), 127] ∧
      sends (writeTx [0x78, 0x00, 0x22,
          (if s.linepos = 21 then (s.linenum + 1) % 8 else s.linenum), 7,
          0x21, 6 * (if s.linepos = 21 then 0 else s.linepos), 127]) =
        [0x78, 0x00, 0x22, (if s.linepos = 21 then (s.linenum + 1) % 8 else s.linenum), 7,
          0x21, 6 * (if s.linepos = 21 then 0 else s.linepos), 127] ∧
      (if s.linepos = 21 then (s.linenum + 1) % 8 else s.linenum) ≤ 7 ∧
      6 * (if s.linepos = 21 then 0 else s.linepos) ≤ 120 := by
  obtain ⟨h1, ht, -⟩ := translatePos_acked s (fun n _ => hA n)
  have hr : (nextLine s).linenum =
      (if s.linepos = 21 then (s.linenum + 1) % 8 else s.linenum) := by
    rw [nextLine_linenum]; split_ifs <;> omega
  have hc : (nextLine s).linepos * 6 = 6 * (if s.linepos = 21 then 0 else s.linepos) := by
    rw [nextLine_linepos]; split_ifs <;> omega
  rw [hr, hc] at ht
  have hr7 : (if s.linepos = 21 then (s.linenum + 1) % 8 else s.linenum) ≤ 7 := by
    split_ifs <;> omega
  have hc120 : 6 * (if s.linepos = 21 then 0 else s.linepos) ≤ 120 := by
    split_ifs <;> omega
  refine ⟨h1, ht, ?_, hr7, hc120⟩
  have e1 : (if s.linepos = 21 then (s.linenum + 1) % 8 else s.linenum) % 256 =
      (if s.linepos = 21 then (s.linenum + 1) % 8 else s.linenum) :=
    Nat.mod_eq_of_lt (by omega)
  have e2 : 6 * (if s.linepos = 21 then 0 else s.linepos) % 256 =
      6 * (if s.linepos = 21 then 0 else s.linepos) :=
    Nat.mod_eq_of_lt (by omega)
  simp only [writeTx, acked, sends, List.cons_append, List.nil_append, e1, e2]

theorem window_set_by_translatePos_witness :
    (translatePos { goodBus with linepos := 21, linenum := 7 }).1 = 1 ∧
      (translatePos { goodBus with linepos := 21, linenum := 7 }).2.trace =
        goodBus.trace ++ writeTx [0x78, 0x00, 0x22, 0, 7, 0x21, 0, 127] :=
  ⟨(window_set_by_translatePos { goodBus with linepos := 21, linenum := 7 }
      (by decide) (by decide) (fun _ => rfl)).1,
   (window_set_by_translatePos { goodBus with linepos := 21, linenum := 7 }
      (by decide) (by decide) (fun _ => rfl)).2.1⟩

/-! ## C17: `clearScreen` homes the cursor exactly when it succeeds -/

theorem sendAll_result (bs : List Nat) (K : State → Nat × State) (s : State) :
    sendAll bs K s = K (wrAll bs s) ∨
      ∃ k, k < bs.length ∧ sendAll bs K s = (0, wrAll (bs.take (k + 1)) s) := by
  induction bs generalizing s with
  | nil => exact Or.inl rfl
  | cons b bs ih =>
    rw [sendAll, sendByte_eq]
    by_cases h0 : s.acks s.ackPos = true
    · rw [if_pos h0]
      rcases ih (wr b s) with h | ⟨k, hk, h⟩
      · exact Or.inl (by rw [h, wrAll_cons])
      · exact Or.inr ⟨k + 1, by simp; omega, by rw [h]; simp⟩
    · rw [if_neg h0]
      exact Or.inr ⟨0, by simp, by simp⟩

/-- Two write transactions in a row, for any two lists of bytes: the result is `0` or
`1`, and when it is `0` the cursor is left as it was. -/
theorem twoTx_failure (w d : List Nat) (fin : State → State) (s : State) :
    ((sendAll w (fun s => sendAll d (fun s => (1, fin (I2CDisconnect s)))
        (StartCondition (I2CDisconnect s))) (StartCondition s)).1 = 0 ∨
     (sendAll w (fun s => sendAll d (fun s => (1, fin (I2CDisconnect s)))
        (StartCondition (I2CDisconnect s))) (StartCondition s)).1 = 1) ∧
    ((sendAll w (fun s => sendAll d (fun s => (1, fin (I2CDisconnect s)))
        (StartCondition (I2CDisconnect s))) (StartCondition s)).1 = 0 →
      (sendAll w (fun s => sendAll d (fun s => (1, fin (I2CDisconnect s)))
        (StartCondition (I2CDisconnect s))) (StartCondition s)).2.linepos = s.linepos ∧
      (sendAll w (fun s => sendAll d (fun s => (1, fin (I2CDisconnect s)))
        (StartCondition (I2CDisconnect s))) (StartCondition s)).2.linenum = s.linenum) := by
  rcases sendAll_result w (fun s => sendAll d (fun s => (1, fin (I2CDisconnect s)))
      (StartCondition (I2CDisconnect s))) (StartCondition s) with h | ⟨k, -, h⟩
  · rw [h]
    rcases sendAll_result d (fun s => (1, fin (I2CDisconnect s)))
        (StartCondition (I2CDisconnect (wrAll w (StartCondition s)))) with h2 | ⟨k, -, h2⟩
    · rw [h2]
      exact ⟨Or.inr rfl, fun h0 => absurd h0 Nat.one_ne_zero⟩
    · rw [h2]
      refine ⟨Or.inl rfl, fun _ => ⟨?_, ?_⟩⟩
      · rw [Prod.snd, wrAll_linepos, StartCondition_linepos, I2CDisconnect_linepos,
          wrAll_linepos, StartCondition_linepos]
      · rw [Prod.snd, wrAll_linenum, StartCondition_linenum, I2CDisconnect_linenum,
          wrAll_linenum, StartCondition_linenum]
  · rw [h]
    refine ⟨Or.inl rfl, fun _ => ⟨?_, ?_⟩⟩
    · rw [Prod.snd, wrAll_linepos, StartCondition_linepos]
    · rw [Prod.snd, wrAll_linenum, StartCondition_linenum]

/-- C17. Whatever the cursor was and whatever the bus answers, `clearScreen` returns `0`
or `1`; when it returns success the cursor is `(0, 0)` afterwards, and when it returns
failure `_g_linenum` and `_g_linepos` are left as they were before the call. -/
theorem clearScreen_homes_iff_success (s : State) :
    ((clearScreen s).1 = 0 ∨ (clearScreen s).1 = 1) ∧
      ((clearScreen s).1 = 1 →
        (clearScreen s).2.linenum = 0 ∧ (clearScreen s).2.linepos = 0) ∧
      ((clearScreen s).1 = 0 →
        (clearScreen s).2.linenum = s.linenum ∧ (clearScreen s).2.linepos = s.linepos) := by
  refine ⟨?_, ?_, ?_⟩
  · rw [clearScreen_eq]
    exact (twoTx_failure clearWindowBytes clearDataBytes homeCursor s).1
  · intro h
    obtain ⟨-, hp, hn, -⟩ := clearScreen_success s h
    exact ⟨hn, hp⟩
  · intro h
    rw [clearScreen_eq] at h ⊢
    obtain ⟨hp, hn⟩ := (twoTx_failure clearWindowBytes clearDataBytes homeCursor s).2 h
    exact ⟨hn, hp⟩

theorem clearScreen_homes_iff_success_witness :
    (clearScreen { deadBus with linepos := 5, linenum := 3 }).2.linenum = 3 ∧
      (clearScreen { deadBus with linepos := 5, linenum := 3 }).2.linepos = 5 :=
  (clearScreen_homes_iff_success { deadBus with linepos := 5, linenum := 3 }).2.2
    (by decide)
/-! ## C12: the memory addressing of `readDisplayPage` -/

/-- The shape of what the read loop adds to the trace, whatever the bus answers: passes
that each begin with a read transaction from the device address `a`, and then either
nothing or a refused attempt to address the device at `a`. -/
theorem readLoop_shape (G : Nat → Glyph) (a n : Nat) :
    ∀ s : State, ∃ (parts : List (Bool × List Ev)) (tail : List Ev),
      (readLoop G a n (fun s => (1, s)) s).2.trace =
          s.trace ++ (loopEvents a s.rx s.rxPos parts ++ tail) ∧
        (tail = [] ∨ tail = [Ev.start, Ev.send (a % 256), Ev.ack false]) ∧
        (∀ p ∈ parts, recvs p.2 = []) := by
  induction n with
  | zero =>
    intro s
    exact ⟨[], [], by simp [readLoop, loopEvents], Or.inl rfl, by simp⟩
  | succ n ih =>
    intro s
    by_cases h0 : s.acks s.ackPos = true
    · rw [readLoop_succ G a n _ s h0, callChecked_eq]
      generalize ht : (I2CDisconnect (Acknowledge
          (USIReceive USI_TIMER_MASK_8BIT (wr a (StartCondition s))).2).2) = t
      have tt : t.trace = s.trace ++ readTx a (s.rx s.rxPos % 256) (s.acks (s.ackPos + 1)) := by
        rw [← ht]; simp [readTx, h0]
      have tr : t.rx = s.rx := by rw [← ht]; simp
      have tx : t.rxPos = s.rxPos + 1 := by rw [← ht]; simp
      obtain ⟨e, pt, pr, -, prx, pxp⟩ := printChar_events G (s.rx s.rxPos % 256) t
      by_cases hz : (printChar G (s.rx s.rxPos % 256) t).1 = 0
      · rw [if_pos hz]
        refine ⟨[(s.acks (s.ackPos + 1), e)], [], ?_, Or.inl rfl, ?_⟩
        · simp only []
          rw [pt, tt]
          simp [loopEvents]
        · intro p hp
          rw [List.mem_singleton] at hp
          subst hp
          exact pr
      · rw [if_neg hz]
        obtain ⟨parts, tail, lt, ltl, lc⟩ := ih (printChar G (s.rx s.rxPos % 256) t).2
        refine ⟨(s.acks (s.ackPos + 1), e) :: parts, tail, ?_, ltl, ?_⟩
        · rw [lt, pt, tt, prx, pxp, tr, tx]
          simp [loopEvents]
        · intro p hp
          rcases List.mem_cons.1 hp with h | h
          · subst h; exact pr
          · exact lc p h
    · rw [readLoop, callChecked_connect]
      simp only []
      rw [sendByte_nack _ _ _ (by simpa using h0)]
      refine ⟨[], [Ev.start, Ev.send (a % 256), Ev.ack false], ?_, Or.inr rfl, by simp⟩
      have hf : s.acks s.ackPos = false := by simpa using h0
      simp [loopEvents, hf]

theorem address_bytes (sub : Nat) (hsub : sub < 16) :
    writeAddress sub = 0xA0 ||| ((sub / 2) <<< 1) ∧ writeAddress sub % 2 = 0 ∧
      (sub <<< 7) % 256 = (if sub % 2 = 1 then 0x80 else 0x00) ∧
      readAddress sub = 0xA0 ||| ((sub / 2) <<< 1) ||| 1 ∧
      writeAddress sub % 256 = writeAddress sub ∧ readAddress sub % 256 = readAddress sub := by
  interval_cases sub <;> decide

/-- C12. For a subpage `sub` in `0..15`, whatever the state and whatever the bus
answers, what `readDisplayPage` does on the bus is: a start condition and the device
byte `0xA0 | ((sub div 2) << 1)`, whose bit 0 is clear; when that byte is acknowledged,
exactly one pointer byte, `0x80` when `sub` is odd and `0x00` when it is even; when that
one is acknowledged too, a stop condition and then the passes of the read loop, each of
which begins with a read transaction addressed to the device byte
`0xA0 | ((sub div 2) << 1) | 1`; after the last pass there is nothing more, or one
attempt to address the same device byte that was not acknowledged. -/
theorem addressing_from_subpage (G : Nat → Glyph) (sub : Nat) (s : State)
    (hsub : sub < 16) :
    writeAddress sub = 0xA0 ||| ((sub / 2) <<< 1) ∧ writeAddress sub % 2 = 0 ∧
      (sub <<< 7) % 256 = (if sub % 2 = 1 then 0x80 else 0x00) ∧
      readAddress sub = 0xA0 ||| ((sub / 2) <<< 1) ||| 1 ∧
      ∃ (parts : List (Bool × List Ev)) (tail : List Ev),
        (tail = [] ∨ tail = [Ev.start, Ev.send (readAddress sub), Ev.ack false]) ∧
        (∀ p ∈ parts, recvs p.2 = []) ∧
        (readDisplayPage G sub s).2.trace =
          s.trace ++ Ev.renderCall sub :: Ev.start :: Ev.send (writeAddress sub) ::
            Ev.ack (s.acks s.ackPos) ::
            (if s.acks s.ackPos = true then
              Ev.send ((sub <<< 7) % 256) :: Ev.ack (s.acks (s.ackPos + 1)) ::
                (if s.acks (s.ackPos + 1) = true then
                  Ev.stop :: (loopEvents (readAddress sub) s.rx s.rxPos parts ++ tail)
                 else [])
             else []) := by
  obtain ⟨a1, a2, a3, a4, a5, a6⟩ := address_bytes sub hsub
  refine ⟨a1, a2, a3, a4, ?_⟩
  rw [readDisplayPage_eq G sub s hsub]
  generalize hs0 : StartCondition { s with trace := s.trace ++ [Ev.renderCall sub] } = s0
  have t0 : s0.trace = s.trace ++ [Ev.renderCall sub, Ev.start] := by rw [← hs0]; simp
  have r0 : s0.rx = s.rx := by rw [← hs0]; rfl
  have x0 : s0.rxPos = s.rxPos := by rw [← hs0]; rfl
  have k0 : s0.acks = s.acks := by rw [← hs0]; rfl
  have p0 : s0.ackPos = s.ackPos := by rw [← hs0]; rfl
  rw [sendByte_eq, k0, p0]
  by_cases h0 : s.acks s.ackPos = true
  · simp only [if_pos h0]
    rw [sendByte_eq, wr_acks, wr_ackPos, k0, p0]
    by_cases h1 : s.acks (s.ackPos + 1) = true
    · simp only [if_pos h1]
      obtain ⟨parts, tail, lt, ltl, lc⟩ := readLoop_shape G (readAddress sub) 128
        (I2CDisconnect (wr (sub <<< 7) (wr (writeAddress sub) s0)))
      rw [a6] at ltl
      refine ⟨parts, tail, ltl, lc, ?_⟩
      rw [lt]
      simp [t0, r0, x0, k0, p0, h0, h1, a5]
    · simp only [if_neg h1]
      refine ⟨[], [], Or.inl rfl, by simp, ?_⟩
      have hf : s.acks (s.ackPos + 1) = false := by simpa using h1
      simp [t0, k0, p0, h0, hf, a5]
  · simp only [if_neg h0]
    refine ⟨[], [], Or.inl rfl, by simp, ?_⟩
    have hf : s.acks s.ackPos = false := by simpa using h0
    simp [t0, k0, p0, hf, a5]

theorem addressing_from_subpage_witness :
    writeAddress 5 = 0xA0 ||| ((5 / 2) <<< 1) ∧ writeAddress 5 % 2 = 0 ∧
      (5 <<< 7) % 256 = (if 5 % 2 = 1 then 0x80 else 0x00) ∧
      readAddress 5 = 0xA0 ||| ((5 / 2) <<< 1) ||| 1 :=
  ⟨(addressing_from_subpage demoGlyphs 5 goodBus (by decide)).1,
   (addressing_from_subpage demoGlyphs 5 goodBus (by decide)).2.1,
   (addressing_from_subpage demoGlyphs 5 goodBus (by decide)).2.2.1,
   (addressing_from_subpage demoGlyphs 5 goodBus (by decide)).2.2.2.1⟩
/-! ## What every bus operation leaves alone -/

theorem stable_wr {R : State → State → Prop} (h : Stable R) (b : Nat) (s : State) :
    R s (wr b s) :=
  h.trans _ _ _ (h.send _ _ _) (h.ack _)

theorem stable_nextLine {R : State → State → Prop} (h : Stable R) (s : State) :
    R s (nextLine s) := by
  simp only [nextLine]
  split_ifs
  · exact h.cursor s 0 0
  · exact h.cursor s 0 ((s.linenum + 1) % 256)
  · exact h.refl s

theorem stable_sendByte {R : State → State → Prop} (h : Stable R) (b : Nat)
    (K : State → Nat × State) (s : State) (hK : ∀ s1, R s1 (K s1).2) :
    R s (sendByte b K s).2 := by
  rw [sendByte_eq]
  split_ifs
  · exact h.trans _ _ _ (stable_wr h b s) (hK _)
  · exact stable_wr h b s

theorem stable_connect {R : State → State → Prop} (h : Stable R) (a : Nat)
    (K : State → Nat × State) (s : State) (hK : ∀ s1, R s1 (K s1).2) :
    R s (callChecked (I2CMasterConnect a) K s).2 := by
  rw [callChecked_connect]
  exact h.trans _ _ _ (h.start s) (stable_sendByte h _ _ _ hK)

theorem stable_control {R : State → State → Prop} (h : Stable R) (c : Nat)
    (K : State → Nat × State) (s : State) (hK : ∀ s1, R s1 (K s1).2) :
    R s (callChecked (SSD1306SendControlByte c) K s).2 := by
  rw [callChecked_control]
  exact stable_sendByte h _ _ _ hK

theorem stable_callChecked {R : State → State → Prop} (h : Stable R)
    (f K : State → Nat × State) (s : State)
    (hf : R s (f s).2) (hK : ∀ s1, R s1 (K s1).2) : R s (callChecked f K s).2 := by
  rw [callChecked_eq]
  split_ifs
  · exact hf
  · exact h.trans _ _ _ hf (hK _)

theorem stable_clearLoop {R : State → State → Prop} (h : Stable R) (n : Nat)
    (K : State → Nat × State) (hK : ∀ s1, R s1 (K s1).2) (s : State) :
    R s (clearLoop n K s).2 := by
  induction n generalizing s with
  | zero => exact hK s
  | succ n ih => exact stable_sendByte h _ _ _ ih

theorem stable_translatePos {R : State → State → Prop} (h : Stable R) (s : State) :
    R s (translatePos s).2 := by
  unfold translatePos
  refine stable_connect h _ _ _ fun s => stable_control h _ _ _ fun s => ?_
  refine h.trans _ _ _ (stable_nextLine h s) ?_
  refine stable_sendByte h _ _ _ fun s => stable_sendByte h _ _ _ fun s => ?_
  refine stable_sendByte h _ _ _ fun s => stable_sendByte h _ _ _ fun s => ?_
  refine stable_sendByte h _ _ _ fun s => stable_sendByte h _ _ _ fun s => ?_
  exact h.stop s

theorem stable_clearScreen {R : State → State → Prop} (h : Stable R) (s : State) :
    R s (clearScreen s).2 := by
  unfold clearScreen
  refine stable_connect h _ _ _ fun s => stable_control h _ _ _ fun s => ?_
  refine stable_sendByte h _ _ _ fun s => stable_sendByte h _ _ _ fun s => ?_
  refine stable_sendByte h _ _ _ fun s => stable_sendByte h _ _ _ fun s => ?_
  refine stable_sendByte h _ _ _ fun s => stable_sendByte h _ _ _ fun s => ?_
  refine h.trans _ _ _ (h.stop s) ?_
  refine stable_connect h _ _ _ fun s => stable_control h _ _ _ fun s => ?_
  refine stable_clearLoop h _ _ (fun s => ?_) _
  exact h.trans _ _ _ (h.stop s) (h.cursor _ _ _)

theorem stable_initSSD1306 {R : State → State → Prop} (h : Stable R) (s : State) :
    R s (initSSD1306 s).2 := by
  unfold initSSD1306
  refine stable_connect h _ _ _ fun s => stable_control h _ _ _ fun s => ?_
  iterate 25 refine stable_sendByte h _ _ _ fun s => ?_
  exact h.stop s

theorem stable_printSegment {R : State → State → Prop} (h : Stable R) (g : Glyph)
    (s : State) : R s (printSegment g s).2 := by
  unfold printSegment
  refine h.trans _ _ _ (h.ghost s Ev.drawCall) (h.trans _ _ _ (stable_translatePos h _) ?_)
  refine stable_connect h _ _ _ fun s => stable_control h _ _ _ fun s => ?_
  iterate 6 refine stable_sendByte h _ _ _ fun s => ?_
  exact h.trans _ _ _ (h.stop s) (h.cursor _ _ _)

theorem stable_printChar {R : State → State → Prop} (h : Stable R) (G : Nat → Glyph)
    (c : Nat) (s : State) : R s (printChar G c s).2 := by
  unfold printChar
  split_ifs
  · exact stable_callChecked h _ _ _ (stable_printSegment h _ _) fun s => h.refl s
  · exact h.refl s

theorem stable_readLoop {R : State → State → Prop} (h : Stable R) (G : Nat → Glyph)
    (a n : Nat) (K : State → Nat × State) (hK : ∀ s1, R s1 (K s1).2) (s : State) :
    R s (readLoop G a n K s).2 := by
  induction n generalizing s with
  | zero => exact hK s
  | succ n ih =>
    unfold readLoop
    refine stable_connect h _ _ _ fun s => ?_
    have h1 : R s (USIReceive USI_TIMER_MASK_8BIT s).2 := h.recv _ s
    have h2 : R s (Acknowledge (USIReceive USI_TIMER_MASK_8BIT s).2).2 :=
      h.trans _ _ _ h1 (h.ack _)
    have h3 : R s (I2CDisconnect (Acknowledge (USIReceive USI_TIMER_MASK_8BIT s).2).2) :=
      h.trans _ _ _ h2 (h.stop _)
    refine h.trans _ _ _ h3 ?_
    exact stable_callChecked h _ _ _ (stable_printChar h _ _ _) ih

theorem stable_readDisplayPage {R : State → State → Prop} (h : Stable R) (G : Nat → Glyph)
    (n : Nat) (s : State) : R s (readDisplayPage G n s).2 := by
  unfold readDisplayPage
  refine h.trans _ _ _ (h.ghost s (Ev.renderCall n)) ?_
  simp only []
  split_ifs
  · refine stable_connect h _ _ _ fun s => stable_sendByte h _ _ _ fun s => ?_
    refine h.trans _ _ _ (h.stop _) ?_
    exact stable_readLoop h _ _ _ _ (fun s => h.refl s) _
  · exact h.refl _

/-! ## The fault output -/

theorem testBit_one_setPin (r pin : Nat) (hp : pin = SDA_PIN ∨ pin = SCL_PIN) :
    (setPin r pin).testBit 1 = r.testBit 1 := by
  unfold setPin
  rcases hp with h | h <;> subst h
  · rw [show (256 : Nat) = 2 ^ 8 from rfl, Nat.testBit_mod_two_pow, Nat.testBit_or]
    have : (1 <<< SDA_PIN).testBit 1 = false := by decide
    simp [this]
  · rw [show (256 : Nat) = 2 ^ 8 from rfl, Nat.testBit_mod_two_pow, Nat.testBit_or]
    have : (1 <<< SCL_PIN).testBit 1 = false := by decide
    simp [this]

theorem testBit_one_clearPin (r pin : Nat) (hp : pin = SDA_PIN ∨ pin = SCL_PIN) :
    (clearPin r pin).testBit 1 = r.testBit 1 := by
  unfold clearPin
  rcases hp with h | h <;> subst h
  · rw [Nat.testBit_and, show (256 : Nat) = 2 ^ 8 from rfl, Nat.testBit_mod_two_pow]
    have : (255 - 1 <<< SDA_PIN).testBit 1 = true := by decide
    simp [this]
  · rw [Nat.testBit_and, show (256 : Nat) = 2 ^ 8 from rfl, Nat.testBit_mod_two_pow]
    have : (255 - 1 <<< SCL_PIN).testBit 1 = true := by decide
    simp [this]

theorem faultBit_stable : Stable (fun s t => faultBit t = faultBit s) where
  refl := fun _ => rfl
  trans := fun _ _ _ h1 h2 => h2.trans h1
  start := fun s => by
    simp only [faultBit, StartCondition_PORTB]
    rw [testBit_one_setPin _ _ (Or.inl rfl), testBit_one_clearPin _ _ (Or.inr rfl),
      testBit_one_clearPin _ _ (Or.inl rfl)]
  stop := fun s => by
    simp only [faultBit, I2CDisconnect_PORTB]
    rw [testBit_one_setPin _ _ (Or.inl rfl), testBit_one_setPin _ _ (Or.inr rfl)]
  send := fun m b s => by
    simp only [faultBit, USISend_PORTB]
    rw [testBit_one_clearPin _ _ (Or.inr rfl), testBit_one_setPin _ _ (Or.inr rfl)]
  ack := fun s => by
    simp only [faultBit, Acknowledge_snd_PORTB]
    rw [testBit_one_clearPin _ _ (Or.inr rfl), testBit_one_setPin _ _ (Or.inr rfl)]
  recv := fun m s => by
    simp only [faultBit, USIReceive_snd_PORTB]
    rw [testBit_one_clearPin _ _ (Or.inr rfl), testBit_one_setPin _ _ (Or.inr rfl)]
  cursor := fun _ _ _ => rfl
  ghost := fun _ _ => rfl

theorem faultBit_redraw (G : Nat → Glyph) (s : State) :
    faultBit (redraw G s) = faultBit s := by
  unfold redraw
  exact (stable_readDisplayPage faultBit_stable G _ _).trans
    (stable_clearScreen faultBit_stable s)

theorem faultBit_ISR (G : Nat → Glyph) (p1 p2 : Nat) (s : State) :
    faultBit (ISR G p1 p2 s) = faultBit s := by
  have hn : ∀ t, faultBit (pressNext G t) = faultBit t := by
    intro t
    unfold pressNext
    rw [faultBit_redraw]
    split_ifs <;> rfl
  have hp : ∀ t, faultBit (pressPrevious G t) = faultBit t := by
    intro t
    unfold pressPrevious
    rw [faultBit_redraw]
    split_ifs <;> rfl
  rw [ISR_unfold]
  split_ifs
  · rw [hp, hn]
  · rw [hp]
  · rw [hn]
  · rfl

theorem faultBit_runISR (G : Nat → Glyph) (ps : List (Nat × Nat)) (s : State) :
    faultBit (runISR G ps s) = faultBit s := by
  induction ps generalizing s with
  | nil => rfl
  | cons p ps ih =>
    unfold runISR
    rw [List.foldl_cons]
    exact (ih _).trans (faultBit_ISR G _ _ s)

theorem main_unfold (G : Nat → Glyph) (s : State) :
    main G s =
      if (readDisplayPage G 0 (beforeRender s)).1 = 0 then
        { (readDisplayPage G 0 (beforeRender s)).2 with
          PORTB := ((readDisplayPage G 0 (beforeRender s)).2.PORTB ||| 2) % 256 }
      else (readDisplayPage G 0 (beforeRender s)).2 := by
  unfold main beforeRender bootPins
  simp only []

theorem faultBit_beforeRender (s : State) : faultBit (beforeRender s) = false := by
  unfold beforeRender
  rw [stable_clearScreen faultBit_stable, stable_initSSD1306 faultBit_stable]
  show Nat.testBit (((1 <<< SCL_PIN ||| 1 <<< SDA_PIN) ||| (1 <<< PB3 ||| 1 <<< PB4)) % 256) 1
    = false
  decide

theorem faultBit_main (G : Nat → Glyph) (s : State) :
    faultBit (main G s) = true ↔ (readDisplayPage G 0 (beforeRender s)).1 = 0 := by
  rw [main_unfold]
  split_ifs with h
  · simp only [faultBit, h, iff_true]
    rw [show (256 : Nat) = 2 ^ 8 from rfl, Nat.testBit_mod_two_pow, Nat.testBit_or]
    have : Nat.testBit 2 1 = true := by decide
    simp [this]
  · have h1 := stable_readDisplayPage faultBit_stable G 0 (beforeRender s)
    simp only [] at h1
    rw [h1, faultBit_beforeRender]
    simp [h]

/-- C14: `main` leaves the fault bit (`PORTB` bit 1) set exactly when its
`readDisplayPage(0)` returns `0`; the bit is clear when that call is made, whatever
`initSSD1306()` and `clearScreen()` returned; and no run of the handler changes it,
for any input levels and any acknowledge outcomes. -/
theorem fault_only_from_first_render (G : Nat → Glyph) (s : State) :
    (faultBit (main G s) = true ↔ (readDisplayPage G 0 (beforeRender s)).1 = 0) ∧
    faultBit (initSSD1306 (bootPins s)).2 = false ∧
    faultBit (clearScreen (initSSD1306 (bootPins s)).2).2 = false ∧
    (∀ p1 p2 t, faultBit (ISR G p1 p2 t) = faultBit t) ∧
    (∀ ps, faultBit (runISR G ps (main G s)) = faultBit (main G s)) := by
  refine ⟨faultBit_main G s, ?_, faultBit_beforeRender s, fun p1 p2 t => faultBit_ISR G p1 p2 t,
    fun ps => faultBit_runISR G ps _⟩
  rw [stable_initSSD1306 faultBit_stable]
  show Nat.testBit (((1 <<< SCL_PIN ||| 1 <<< SDA_PIN) ||| (1 <<< PB3 ||| 1 <<< PB4)) % 256) 1
    = false
  decide

/-- C13 (counterexample): on a bus where nothing answers, a run of the handler with `PB3`
low calls `clearScreen()` and `readDisplayPage(1)`, both return `0`, and the fault bit
is still clear when the handler returns. -/
theorem handler_failure_sets_no_fault :
    0xF7 &&& (1 <<< PB3) = 0 ∧ 0xFF &&& (1 <<< PB4) ≠ 0 ∧
    faultBit deadBus = false ∧
    (clearScreen { deadBus with currentsubPage := 1 }).1 = 0 ∧
    (readDisplayPage demoGlyphs 1 (clearScreen { deadBus with currentsubPage := 1 }).2).1 = 0 ∧
    ISR demoGlyphs 0xF7 0xFF deadBus =
      (readDisplayPage demoGlyphs 1 (clearScreen { deadBus with currentsubPage := 1 }).2).2 ∧
    faultBit (ISR demoGlyphs 0xF7 0xFF deadBus) = false := by
  refine ⟨by decide, by decide, by decide, by decide, by decide, ?_, ?_⟩
  · rw [ISR_unfold]
    rfl
  · rw [faultBit_ISR]
    decide

/-- C13 (amended): a run of the handler returns with the fault bit as it was at entry,
whatever the input levels and whatever its `clearScreen()` and `readDisplayPage()` calls
return, so a fault bit with the value `b` keeps it over every sequence of runs; `main`
leaves the bit set exactly when its `readDisplayPage(0)` returns `0`, so after `main` and
any sequence of handler runs the bit is set exactly when that first call failed. -/
theorem fault_output_unchanged_by_handler (G : Nat → Glyph) (s0 s : State) (b : Bool)
    (hb : faultBit s = b) :
    (∀ p1 p2, faultBit (ISR G p1 p2 s) = b) ∧
    (∀ ps, faultBit (runISR G ps s) = b) ∧
    faultBit (clearScreen s).2 = b ∧
    (∀ n, faultBit (readDisplayPage G n s).2 = b) ∧
    (faultBit (main G s0) = true ↔ (readDisplayPage G 0 (beforeRender s0)).1 = 0) ∧
    (∀ ps, faultBit (runISR G ps (main G s0)) = true ↔
      (readDisplayPage G 0 (beforeRender s0)).1 = 0) := by
  subst hb
  refine ⟨fun p1 p2 => faultBit_ISR G p1 p2 s, fun ps => faultBit_runISR G ps s,
    stable_clearScreen faultBit_stable s,
    fun n => stable_readDisplayPage faultBit_stable G n s, faultBit_main G s0, ?_⟩
  intro ps
  rw [faultBit_runISR]
  exact faultBit_main G s0

theorem fault_output_unchanged_by_handler_witness :
    faultBit (main demoGlyphs deadBus) = true ∧
    faultBit (runISR demoGlyphs [(0xF7, 0xFF), (0xFF, 0xEF)] (main demoGlyphs deadBus))
      = true :=
  ⟨by decide,
   (fault_output_unchanged_by_handler demoGlyphs deadBus (main demoGlyphs deadBus) true
      (by decide)).2.1 _⟩
/-! ## Failure paths leave the transaction open -/

theorem after_append {t0 t : List Ev} (h : After t0 t) (es : List Ev) : After t0 (t ++ es) := by
  obtain ⟨evs, rfl⟩ := h
  exact ⟨evs ++ es, by simp⟩

theorem after_of_inTx {t0 t : List Ev} (h : InTx t0 t) : After t0 t := by
  obtain ⟨pre, w, rfl, -⟩ := h
  exact ⟨_, rfl⟩

theorem after_trans {t0 t1 t : List Ev} (h1 : After t0 t1) (h2 : After t1 t) : After t0 t := by
  obtain ⟨e1, rfl⟩ := h1
  obtain ⟨e2, rfl⟩ := h2
  exact ⟨e1 ++ e2, by simp⟩

theorem inTx_start {t0 t : List Ev} (h : After t0 t) : InTx t0 (t ++ [Ev.start]) := by
  obtain ⟨evs, rfl⟩ := h
  exact ⟨evs, [], by simp, by simp⟩

theorem inTx_bytes {t0 t : List Ev} (h : InTx t0 t) (es : List Ev)
    (hes : ∀ e ∈ es, byteEv e = true) : InTx t0 (t ++ es) := by
  obtain ⟨pre, w, rfl, hw⟩ := h
  refine ⟨pre, w ++ es, by simp, ?_⟩
  intro e he
  rcases List.mem_append.1 he with h | h
  · exact hw e h
  · exact hes e h

theorem inTx_wr {t0 : List Ev} (b : Nat) (s : State) (h : InTx t0 s.trace) :
    InTx t0 (wr b s).trace := by
  rw [wr_trace]
  refine inTx_bytes h _ ?_
  intro e he
  simp at he
  rcases he with h | h <;> subst h <;> rfl

theorem after_stop {t0 : List Ev} (s : State) (h : InTx t0 s.trace) :
    After t0 (I2CDisconnect s).trace := by
  rw [I2CDisconnect_trace]
  exact after_append (after_of_inTx h) _

theorem fo_one (t0 : List Ev) (s : State) : FailsOpen t0 (1, s) :=
  fun h => absurd h Nat.one_ne_zero

theorem fo_sendByte {t0 : List Ev} (b : Nat) (K : State → Nat × State) (s : State)
    (hin : InTx t0 s.trace) (hK : ∀ s1, InTx t0 s1.trace → FailsOpen t0 (K s1)) :
    FailsOpen t0 (sendByte b K s) := by
  rw [sendByte_eq]
  split_ifs with ha
  · exact hK _ (inTx_wr b s hin)
  · intro _
    obtain ⟨pre, w, ht, hw⟩ := hin
    refine ⟨pre, w, b % 256, ?_, hw⟩
    have hf : s.acks s.ackPos = false := by simpa using ha
    show (wr b s).trace = _
    rw [wr_trace, ht, hf]
    simp

theorem fo_connect {t0 : List Ev} (a : Nat) (K : State → Nat × State) (s : State)
    (haf : After t0 s.trace) (hK : ∀ s1, InTx t0 s1.trace → FailsOpen t0 (K s1)) :
    FailsOpen t0 (callChecked (I2CMasterConnect a) K s) := by
  rw [callChecked_connect]
  refine fo_sendByte _ _ _ ?_ hK
  rw [StartCondition_trace]
  exact inTx_start haf

theorem fo_control {t0 : List Ev} (c : Nat) (K : State → Nat × State) (s : State)
    (hin : InTx t0 s.trace) (hK : ∀ s1, InTx t0 s1.trace → FailsOpen t0 (K s1)) :
    FailsOpen t0 (callChecked (SSD1306SendControlByte c) K s) := by
  rw [callChecked_control]
  exact fo_sendByte _ _ _ hin hK

theorem fo_callChecked {t0 : List Ev} (f K : State → Nat × State) (s : State)
    (hf : FailsOpen t0 (f s)) (hK : FailsOpen t0 (K (f s).2)) :
    FailsOpen t0 (callChecked f K s) := by
  rw [callChecked_eq]
  split_ifs with h
  · intro _
    exact hf h
  · exact hK

theorem fo_clearLoop {t0 : List Ev} (n : Nat) (K : State → Nat × State)
    (hK : ∀ s1, InTx t0 s1.trace → FailsOpen t0 (K s1)) (s : State) (hin : InTx t0 s.trace) :
    FailsOpen t0 (clearLoop n K s) := by
  induction n generalizing s with
  | zero => exact hK s hin
  | succ n ih => exact fo_sendByte _ _ _ hin ih

theorem fo_translatePos {t0 : List Ev} (s : State) (haf : After t0 s.trace) :
    FailsOpen t0 (translatePos s) := by
  unfold translatePos
  refine fo_connect _ _ _ haf fun s h => fo_control _ _ _ h fun s h => ?_
  have h1 : InTx t0 (nextLine s).trace := by rw [nextLine_trace]; exact h
  refine fo_sendByte _ _ _ h1 fun s h => fo_sendByte _ _ _ h fun s h => ?_
  refine fo_sendByte _ _ _ h fun s h => fo_sendByte _ _ _ h fun s h => ?_
  refine fo_sendByte _ _ _ h fun s h => fo_sendByte _ _ _ h fun s h => ?_
  exact fo_one _ _

theorem fo_initSSD1306 {t0 : List Ev} (s : State) (haf : After t0 s.trace) :
    FailsOpen t0 (initSSD1306 s) := by
  unfold initSSD1306
  refine fo_connect _ _ _ haf fun s h => fo_control _ _ _ h fun s h => ?_
  iterate 25 refine fo_sendByte _ _ _ h fun s h => ?_
  exact fo_one _ _

theorem fo_clearScreen {t0 : List Ev} (s : State) (haf : After t0 s.trace) :
    FailsOpen t0 (clearScreen s) := by
  unfold clearScreen
  refine fo_connect _ _ _ haf fun s h => fo_control _ _ _ h fun s h => ?_
  refine fo_sendByte _ _ _ h fun s h => fo_sendByte _ _ _ h fun s h => ?_
  refine fo_sendByte _ _ _ h fun s h => fo_sendByte _ _ _ h fun s h => ?_
  refine fo_sendByte _ _ _ h fun s h => fo_sendByte _ _ _ h fun s h => ?_
  refine fo_connect _ _ _ (after_stop s h) fun s h => fo_control _ _ _ h fun s h => ?_
  refine fo_clearLoop _ _ (fun s _ => ?_) s h
  exact fo_one _ _

theorem after_of_ext {P : Ev → Prop} {t0 : List Ev} {s : State} {r : Nat × State}
    (h : Ext P s r) (haf : After t0 s.trace) : After t0 r.2.trace := by
  obtain ⟨evs, ht, -⟩ := h
  rw [ht]
  exact after_append haf _

theorem fo_printSegment {t0 : List Ev} (g : Glyph) (s : State) (haf : After t0 s.trace) :
    FailsOpen t0 (printSegment g s) := by
  unfold printSegment
  have h1 : After t0
      (translatePos { s with trace := s.trace ++ [Ev.drawCall] }).2.trace :=
    after_of_ext (ext_translatePos (fun _ _ => trivial) _) (after_append haf _)
  refine fo_connect _ _ _ h1 fun s h => fo_control _ _ _ h fun s h => ?_
  iterate 6 refine fo_sendByte _ _ _ h fun s h => ?_
  exact fo_one _ _

theorem fo_printChar {t0 : List Ev} (G : Nat → Glyph) (c : Nat) (s : State)
    (haf : After t0 s.trace) : FailsOpen t0 (printChar G c s) := by
  unfold printChar
  split_ifs
  · exact fo_callChecked _ _ _ (fo_printSegment _ _ haf) (fo_one _ _)
  · exact fo_one _ _

theorem fo_readLoop {t0 : List Ev} (G : Nat → Glyph) (a n : Nat) (s : State)
    (haf : After t0 s.trace) : FailsOpen t0 (readLoop G a n (fun s => (1, s)) s) := by
  induction n generalizing s with
  | zero => exact fo_one _ _
  | succ n ih =>
    unfold readLoop
    refine fo_connect _ _ _ haf fun s h => ?_
    have h3 : After t0
        (I2CDisconnect (Acknowledge (USIReceive USI_TIMER_MASK_8BIT s).2).2).trace := by
      rw [I2CDisconnect_trace, Acknowledge_snd_trace, USIReceive_snd_trace]
      exact after_append (after_append (after_append (after_of_inTx h) _) _) _
    refine fo_callChecked _ _ _ (fo_printChar G _ _ h3) (ih _ ?_)
    exact after_of_ext (ext_printChar (fun _ _ => trivial) trivial G _ _) h3

theorem fo_readDisplayPage (G : Nat → Glyph) (sub : Nat) (s : State) :
    FailsOpen s.trace (readDisplayPage G sub s) := by
  unfold readDisplayPage
  simp only []
  split_ifs
  · refine fo_connect _ _ _ ⟨[Ev.renderCall sub], rfl⟩ fun s h =>
      fo_sendByte _ _ _ h fun s h => ?_
    exact fo_readLoop G _ _ _ (after_stop s h)
  · exact fo_one _ _

/-- C20: when `initSSD1306`, `translatePos`, `clearScreen`, `printSegment` or
`readDisplayPage` returns `0`, the events it added to the trace are: some events `pre`,
a start condition, bytes and acknowledge pulses `w`, and a last byte `b` that was not
acknowledged. No stop condition follows the last start condition, and nothing at all
follows the refused byte. -/
theorem no_stop_on_failure (G : Nat → Glyph) (g : Glyph) (sub : Nat) (s : State)
    (f : State → Nat × State)
    (hf : f = initSSD1306 ∨ f = translatePos ∨ f = clearScreen ∨ f = printSegment g ∨
      f = readDisplayPage G sub)
    (hfail : (f s).1 = 0) :
    ∃ pre w b,
      (f s).2.trace = s.trace ++ (pre ++ Ev.start :: (w ++ [Ev.send b, Ev.ack false])) ∧
      (∀ e ∈ w, byteEv e = true) ∧
      Ev.stop ∉ w ++ [Ev.send b, Ev.ack false] := by
  have h : FailsOpen s.trace (f s) := by
    rcases hf with h | h | h | h | h <;> subst h
    · exact fo_initSSD1306 s ⟨[], by simp⟩
    · exact fo_translatePos s ⟨[], by simp⟩
    · exact fo_clearScreen s ⟨[], by simp⟩
    · exact fo_printSegment g s ⟨[], by simp⟩
    · exact fo_readDisplayPage G sub s
  obtain ⟨pre, w, b, ht, hw⟩ := h hfail
  refine ⟨pre, w, b, ht, hw, ?_⟩
  intro hmem
  rcases List.mem_append.1 hmem with h1 | h1
  · exact absurd (hw _ h1) (by decide)
  · simp at h1

theorem no_stop_on_failure_witness :
    (clearScreen (glitchBus 5)).1 = 0 ∧
    ∃ pre w b,
      (clearScreen (glitchBus 5)).2.trace =
        (glitchBus 5).trace ++ (pre ++ Ev.start :: (w ++ [Ev.send b, Ev.ack false])) ∧
      (∀ e ∈ w, byteEv e = true) ∧
      Ev.stop ∉ w ++ [Ev.send b, Ev.ack false] :=
  ⟨by decide,
   no_stop_on_failure demoGlyphs (demoGlyphs 65) 0 (glitchBus 5) clearScreen
     (Or.inr (Or.inr (Or.inl rfl))) (by decide)⟩
/-! ## C19: the memory addressing is injective -/

/-- For a subpage in `0..15` whose device byte is acknowledged, `readDisplayPage` begins
with a start condition, the device byte `writeAddress sub` and the pointer byte
`(sub << 7) mod 256`. -/
theorem readDisplayPage_prefix (G : Nat → Glyph) (sub : Nat) (s : State) (hsub : sub < 16)
    (h0 : s.acks s.ackPos = true) :
    ∃ rest, (readDisplayPage G sub s).2.trace =
      s.trace ++ Ev.renderCall sub :: Ev.start :: Ev.send (writeAddress sub) :: Ev.ack true ::
        Ev.send ((sub <<< 7) % 256) :: rest := by
  obtain ⟨-, -, -, -, a5, -⟩ := address_bytes sub hsub
  rw [readDisplayPage_eq G sub s hsub, sendByte_ack _ _ _ (by simpa using h0), sendByte_eq]
  split_ifs with h1
  · obtain ⟨evs, ht, -⟩ := ext_readLoop (P := fun _ => True) (fun _ _ => trivial) trivial
      (fun _ => trivial) G (readAddress sub) 128 (fun s => (1, s))
      (fun s => ext_refl _ 1 s)
      (I2CDisconnect (wr (sub <<< 7) (wr (writeAddress sub)
        (StartCondition { s with trace := s.trace ++ [Ev.renderCall sub] }))))
    refine ⟨Ev.ack (s.acks (s.ackPos + 1)) :: Ev.stop :: evs, ?_⟩
    rw [ht]
    simp [h0, a5]
  · refine ⟨[Ev.ack (s.acks (s.ackPos + 1))], ?_⟩
    simp [h0, a5]

/-- C19. For subpages `s ≠ t` in `0..15` the pair of the device byte of the address-set
transaction and of the pointer byte differs; for every subpage in `0..15` the device
byte is in `0xA0..0xAE`, keeps the four base address bits `0xA0` and has bit 0, the
read/write bit, clear; and these two bytes are the ones that `readDisplayPage` sends
after its start condition. -/
theorem addressing_injective :
    (∀ s, s < 16 → ∀ t, t < 16 → s ≠ t →
        (writeAddress s, (s <<< 7) % 256) ≠ (writeAddress t, (t <<< 7) % 256)) ∧
      (∀ s, s < 16 →
        0xA0 ≤ writeAddress s ∧ writeAddress s ≤ 0xAE ∧
        writeAddress s &&& 0xF0 = 0xA0 ∧ writeAddress s &&& 1 = 0 ∧
        writeAddress s = 0xA0 ||| ((s / 2) <<< 1)) ∧
      (∀ (G : Nat → Glyph) (s : Nat) (st : State), s < 16 → st.acks st.ackPos = true →
        ∃ rest, (readDisplayPage G s st).2.trace =
          st.trace ++ Ev.renderCall s :: Ev.start :: Ev.send (writeAddress s) ::
            Ev.ack true :: Ev.send ((s <<< 7) % 256) :: rest) :=
  ⟨by decide, by decide, fun G s st hs h0 => readDisplayPage_prefix G s st hs h0⟩

theorem addressing_injective_witness :
    (writeAddress 2, (2 <<< 7) % 256) ≠ (writeAddress 3, (3 <<< 7) % 256) :=
  addressing_injective.1 2 (by decide) 3 (by decide) (by decide)

end Attiny85
